import Mathlib

/-!
Verification of the field-usage estimation and keyword fuzzy-matching logic of
the SFDCAudit repository (`scripts/search_fieldUsage.py` and
`scripts/search_fields.py`).

The Python code is shallowly embedded:

* JSON/Python values returned by the external record store are modelled by the
  inductive type `Value` (with `vNull` standing for Python's `None` and for
  pandas `NaN`); a store record is a `Record` (its `Id` plus an association
  list of field values).
* The external world reached through the `sfdx` CLI is an `Env`: the schema a
  describe call would return, the record store contents (a list sorted by
  `Id`), the result of the `SELECT count()` query, and per-query failure
  flags/schedules (a failed `run_sfdx_command` returns `None` in Python and
  is modelled by `none` / a `true` failure flag here).
* Python `float` arithmetic is modelled by exact rational arithmetic `ℚ`;
  Python's `int(x)` on the non-negative values appearing here is `⌊x⌋` and
  `round(x, 2)` is `round2` below.
* The `while` loops of the two pagination strategies become fuel-indexed
  structural recursions (`cursorLoop`, `smallLoop`); the fuel passed by the
  wrappers is large enough that, under the store-consistency invariant
  relating the counted population to the store, the fuel never runs out.
* `difflib.SequenceMatcher(None, a, b).ratio()` is embedded by `similarity`:
  matching blocks are computed by a recursion on windows using
  `longestMatch`, which mirrors `find_longest_match` with `isjunk=None` —
  the junk-free dynamic program (whose index omits the autojunk "popular"
  elements of a second sequence of 200 or more characters), tie-broken
  towards the earliest start in `a` and then in `b`, followed by the two
  match-extension loops; the junk extension loops are dropped because the
  junk set is empty for `isjunk=None`.
-/

namespace SFDCAudit

/-- A JSON/Python value as seen by the analysis code.  `vNull` models both
Python `None` and pandas `NaN`; `vDict` models a nested JSON object such as a
compound `address` value. -/
inductive Value where
  | vNull : Value
  | vStr : String → Value
  | vNum : Int → Value
  | vBool : Bool → Value
  | vDict : List (String × Value) → Value

/-- Python truthiness of a value (`bool(v)`): `None`, `""`, `0`, `False` and
`\x7b\x7d` are falsy. -/
def Value.truthy : Value → Bool
  | .vNull => false
  | .vStr s => !(s == "")
  | .vNum n => !(n == 0)
  | .vBool b => b
  | .vDict es => !(es.isEmpty)

/-- pandas `notna` on a cell: only `None`/`NaN` (modelled by `vNull`) is "na";
in particular the empty string and an empty dict are *not* na. -/
def Value.notna : Value → Bool
  | .vNull => false
  | _ => true

/-- One record returned by a SOQL query: its `Id` (used for cursor-based
pagination, `ORDER BY Id`) and the queried field values. -/
structure Record where
  id : Nat
  fields : List (String × Value)

/-- `row.get(field_name)` in Python: a missing key yields `None` (`vNull`). -/
def Record.get (r : Record) (f : String) : Value :=
  (r.fields.lookup f).getD Value.vNull

/-! ## Fuzzy matching (`search_fields.py`)

`fuzzy_match` (lines 101-113) lowercases both strings, first tries a
substring test (Python `in`), then compares
`difflib.SequenceMatcher(None, a, b).ratio()` against the threshold. -/

/-- `DEFAULT_SIMILARITY_THRESHOLD = 0.6` (`search_fields.py` line 11). -/
def DEFAULT_SIMILARITY_THRESHOLD : ℚ := 6 / 10

/-- The ASCII restriction of Python `str.lower()` on the character list of
a string; it agrees with `str.lower()` on every ASCII string.  The claim
about the matcher's contract is stated generically in the lowercasing
function, so that it also covers the full Unicode `str.lower()`, which has
no evaluable embedding here. -/
def lowerList (l : List Char) : List Char := l.map Char.toLower

/-- The ASCII restriction of Python `str.lower()` as a whole-string
function, used by the schema name/type comparisons (which the sources
apply to ASCII API names and type names). -/
def strLower (s : String) : String := ⟨lowerList s.toList⟩

/-- Auxiliary for the substring test: is the first list a prefix of the
second? -/
def listIsPref : List Char → List Char → Bool
  | [], _ => true
  | _ :: _, [] => false
  | a :: as, b :: bs => a == b && listIsPref as bs

/-- Python's `needle in hay` on strings: `needle` occurs contiguously in
`hay` (the empty needle occurs in every string). -/
def hasSub (needle : List Char) : List Char → Bool
  | [] => listIsPref needle []
  | c :: t => listIsPref needle (c :: t) || hasSub needle t

/-- `SequenceMatcher.__chain_b`'s autojunk purge with `isjunk=None`: when
the second sequence has at least 200 elements, an element occurring more
than `len(b) // 100 + 1` times is "popular" and deleted from the `b2j`
index, so the dynamic program of `find_longest_match` never chains through
its positions.  (With `isjunk=None` the junk set `bjunk` itself is empty:
popular elements are kept out of `bjunk`, so they still participate in the
non-junk extension phase, and the junk extension loops never fire.) -/
def isPopular (b : List Char) (c : Char) : Bool :=
  decide (200 ≤ b.length) && decide (b.length / 100 + 1 < b.count c)

/-- Length of the common run of two suffixes in which every matched
element of `b` is indexable by the dynamic program (not autojunk-popular in
the full `b`): the junk-free run of `j2len` chaining. -/
def cleanRunLen (b0 : List Char) : List Char → List Char → Nat
  | x :: xs, y :: ys =>
    if x == y && !(isPopular b0 y) then cleanRunLen b0 xs ys + 1 else 0
  | _, _ => 0

/-- The slice `l[lo:hi]` of a character list. -/
def window (l : List Char) (lo hi : Nat) : List Char := (l.drop lo).take (hi - lo)

/-- The dynamic program of `SequenceMatcher.find_longest_match` on the
windows `a[alo:ahi]`, `b[blo:bhi]`: the longest junk-free matching block
`(i, j, k)`, choosing among maximal blocks the one starting earliest in
`a`, then earliest in `b` (the `k > bestsize` update over the ascending
scan realises exactly this choice). -/
def dpBest (a b : List Char) (alo ahi blo bhi : Nat) : Nat × Nat × Nat :=
  (List.range (ahi - alo)).foldl (fun best di =>
    (List.range (bhi - blo)).foldl (fun best2 dj =>
      if best2.2.2 < cleanRunLen b (window a (alo + di) ahi) (window b (blo + dj) bhi) then
        (alo + di, blo + dj,
          cleanRunLen b (window a (alo + di) ahi) (window b (blo + dj) bhi))
      else best2) best)
    (alo, blo, 0)

/-- `find_longest_match`'s first extension loop ("extend the best by
non-junk elements" — with `isjunk=None` the junk test is vacuous): march
the block's left edge down while the adjacent characters match.  The fuel
passed by `longestMatch` is the starting `i`, which dominates the number of
iterations. -/
def extendLeft (a b : List Char) (alo blo : Nat) : Nat → Nat → Nat → Nat → Nat × Nat × Nat
  | 0, i, j, k => (i, j, k)
  | fuel + 1, i, j, k =>
    if decide (alo < i) && decide (blo < j) &&
        (a.getD (i - 1) default == b.getD (j - 1) default) then
      extendLeft a b alo blo fuel (i - 1) (j - 1) (k + 1)
    else (i, j, k)

/-- `find_longest_match`'s second extension loop: grow the block to the
right while the adjacent characters match.  The fuel passed by
`longestMatch` is `ahi - i`, which dominates the number of iterations. -/
def extendRight (a b : List Char) (ahi bhi i j : Nat) : Nat → Nat → Nat
  | 0, k => k
  | fuel + 1, k =>
    if decide (i + k < ahi) && decide (j + k < bhi) &&
        (a.getD (i + k) default == b.getD (j + k) default) then
      extendRight a b ahi bhi i j fuel (k + 1)
    else k

/-- `SequenceMatcher.find_longest_match` with `isjunk=None`: the junk-free
dynamic-program block, extended on both ends by matching characters.  The
final pair of junk extension loops is omitted because `bjunk` is empty for
`isjunk=None`. -/
def longestMatch (a b : List Char) (alo ahi blo bhi : Nat) : Nat × Nat × Nat :=
  let best := dpBest a b alo ahi blo bhi
  let ext := extendLeft a b alo blo best.1 best.1 best.2.1 best.2.2
  (ext.1, ext.2.1, extendRight a b ahi bhi ext.1 ext.2.1 (ahi - ext.1) ext.2.2)

/-- `SequenceMatcher.get_matching_blocks` summed: the total number of matched
characters.  difflib recurses on the sub-windows to the left and right of the
longest match; the fuel argument dominates the recursion depth (each
recursive window is strictly smaller in `a`). -/
def blocksSum (a b : List Char) : Nat → Nat → Nat → Nat → Nat → Nat
  | 0, _, _, _, _ => 0
  | fuel + 1, alo, ahi, blo, bhi =>
    if (longestMatch a b alo ahi blo bhi).2.2 = 0 then 0
    else
      (longestMatch a b alo ahi blo bhi).2.2 +
        blocksSum a b fuel alo (longestMatch a b alo ahi blo bhi).1 blo
          (longestMatch a b alo ahi blo bhi).2.1 +
        blocksSum a b fuel
          ((longestMatch a b alo ahi blo bhi).1 + (longestMatch a b alo ahi blo bhi).2.2) ahi
          ((longestMatch a b alo ahi blo bhi).2.1 + (longestMatch a b alo ahi blo bhi).2.2) bhi

/-- Total matched characters over the whole strings. -/
def matchTotal (a b : List Char) : Nat :=
  blocksSum a b (a.length + b.length + 1) 0 a.length 0 b.length

/-- `SequenceMatcher(None, a, b).ratio() = 2*M/T` where `M` is the number of
matched characters and `T` the sum of lengths; difflib returns `1.0` when
both strings are empty. -/
def similarity (a b : List Char) : ℚ :=
  if a.length + b.length = 0 then 1
  else (2 * (matchTotal a b : ℚ)) / ((a.length + b.length : Nat) : ℚ)

/-- `fuzzy_match(search_term, text, threshold)` (`search_fields.py` lines
101-113) with the lowercasing function abstracted: `False` for
`text is None`; otherwise a substring test on the lowered strings, falling
back to `similarity ≥ threshold`.  The program is the instance at Python's
`str.lower()`; the matcher's contract below is proved for every
lowercasing function. -/
def fuzzy_match_gen (lower : String → List Char) (search_term : String)
    (text : Option String) (threshold : ℚ) : Bool :=
  match text with
  | none => false
  | some t =>
    let a := lower search_term
    let b := lower t
    if hasSub a b then true
    else decide (threshold ≤ similarity a b)

/-- The executable instance of `fuzzy_match` at the ASCII restriction of
`str.lower()` (exact on every ASCII string). -/
def fuzzy_match (search_term : String) (text : Option String) (threshold : ℚ) : Bool :=
  fuzzy_match_gen (fun s => lowerList s.toList) search_term text threshold

/-! ## Field-usage estimation (`search_fieldUsage.py`)

The external world of one analysis run.  A `none`/`true` entry models a
failing `run_sfdx_command` (which prints an error and returns `None` in
Python).  The claims about complete runs additionally assume the
store-consistency invariant of the spec: `pop` is sorted by `Id` and its
length is the counted population size. -/
structure Env where
  /-- `sfdx force:schema:sobject:describe`: the object's fields as
  `(name, type)` pairs; `none` if the describe call fails. -/
  schema : Option (List (String × String))
  /-- The contents of the record store, in `Id` order. -/
  pop : List Record
  /-- The result of `SELECT count()`; `none` if the count query fails. -/
  countResult : Option Nat
  /-- The result of `SELECT COUNT() ... WHERE field != null` used by
  `get_field_usage`; `none` if that query fails. -/
  countNonNullResult : Option Nat
  /-- The initial cursor-pagination query fails. -/
  cursorInitFail : Bool
  /-- The follow-up cursor query issued after processing batch `n` fails. -/
  cursorPageFail : Nat → Bool
  /-- The small-batch query for batch number `n` fails. -/
  smallBatchFail : Nat → Bool
  /-- The single data query of the sampling / small-dataset path (and the
  sampling query of `get_field_usage`) fails. -/
  singleQueryFail : Bool

/-- One usage-statistics dictionary as returned by the Python code.  The
optional members model the keys that only some code paths put into the
dict (`is_estimated`, `sample_size`, `records_analyzed`). -/
structure UsageResult where
  object : String
  field : String
  total_records : Nat
  non_null_records : Nat
  usage_pct : ℚ
  is_estimated : Option Bool := none
  sample_size : Option Nat := none
  records_analyzed : Option Nat := none

/-- Python `round(x, 2)`.  (At exact two-decimal ties Python rounds
half-to-even; no statement below depends on a tie.) -/
def round2 (q : ℚ) : ℚ := ((round (q * 100) : ℤ) : ℚ) / 100

/-- `get_total_record_count` (lines 85-100): the count query's `totalSize`,
or `0` on any error. -/
def get_total_record_count (env : Env) : Nat := env.countResult.getD 0

/-- Python dict assignment `d[k] = v`: update in place if the key exists,
else append. -/
def dictUpsert (d : List (String × String)) (k v : String) : List (String × String) :=
  if d.any (fun p => p.1 == k) then d.map (fun p => if p.1 == k then (k, v) else p)
  else d ++ [(k, v)]

/-- `validate_fields_on_object` (lines 102-136): map each requested name to
the schema field whose name matches case-insensitively, keeping the schema's
casing and the lower-cased type; unknown names are dropped with a warning;
a failed describe yields the empty dict. -/
def validate_fields_on_object (schema : Option (List (String × String)))
    (field_names : List String) : List (String × String) :=
  match schema with
  | none => []
  | some fields =>
    field_names.foldl (fun acc fn =>
      match fields.find? (fun f => strLower f.1 == strLower fn) with
      | some f => dictUpsert acc f.1 (strLower f.2)
      | none => acc) []

/-- The per-record non-null test of the batch paths (lines 248-264 and the
identical blocks at 342-360 and 456-474): fields of declared type `address`
count when `isinstance(value, dict)` and some sub-value is non-`None` *and*
truthy (`any(v for v in field_value.values() if v is not None)`); every
other type (including `location`) uses pandas `notna`. -/
def compoundNonNull : Value → Bool
  | .vDict es => ((es.map Prod.snd).filter Value.notna).any Value.truthy
  | _ => false

/-- Number of records of a dataframe whose `field_name` cell is non-null in
the sense of the batch analysis (see `compoundNonNull`). -/
def countNonNull (field_name field_type : String) (df : List Record) : Nat :=
  if field_type == "address" || field_type == "location" then
    if field_type == "address" then
      (df.filter (fun r => compoundNonNull (r.get field_name))).length
    else
      (df.filter (fun r => (r.get field_name).notna)).length
  else
    (df.filter (fun r => (r.get field_name).notna)).length

/-- `field_name in df.columns`: pandas builds the column set as the union of
the record keys. -/
def colPresent (df : List Record) (field_name : String) : Bool :=
  df.any (fun r => (r.fields.lookup field_name).isSome)

/-- The per-batch counting step shared by the three batch loops: fields
missing from the dataframe's columns contribute nothing (`continue`). -/
def batchCounts (vf : List (String × String)) (df : List Record) : List Nat :=
  vf.map (fun p => if colPresent df p.1 then countNonNull p.1 p.2 df else 0)

/-- Pointwise accumulation of the per-field counters `field_counts`. -/
def zipAdd (xs ys : List Nat) : List Nat := List.zipWith (· + ·) xs ys

/-- Loop state of the two pagination loops: per-field non-null counters (in
the order of `valid_fields`), `processed_records`, and the number of record
data queries issued so far. -/
structure LoopState where
  counts : List Nat
  processed : Nat
  queries : Nat

/-- The follow-up cursor query
`SELECT ... WHERE Id > last_id ORDER BY Id LIMIT n` evaluated against the
`Id`-sorted store. -/
def queryAfter (pop : List Record) (lastId : Nat) (limit : Nat) : List Record :=
  (pop.filter (fun r => decide (lastId < r.id))).take limit

/-- The `while True` loop of `process_with_cursor_pagination` (lines
328-383): process the current batch, stop on an empty batch, on
`processed >= total`, on a short batch, or on a failing follow-up query
(which in the source merely `break`s — it does *not* raise).  The fuel
argument bounds the number of iterations; the wrapper passes
`total_record_count + 1`, enough for every run over a store consistent with
the count. -/
def cursorLoop (pop : List Record) (vf : List (String × String)) (total abs : Nat)
    (pageFail : Nat → Bool) : Nat → List Record → Nat → LoopState → LoopState
  | 0, _, _, st => st
  | fuel + 1, current, batchNum, st =>
    if current.isEmpty then st
    else
      let st' : LoopState :=
        ⟨zipAdd st.counts (batchCounts vf current), st.processed + current.length, st.queries⟩
      if total ≤ st'.processed ∨ current.length < abs then st'
      else
        match current.getLast? with
        | none => st'
        | some lastRec =>
          let st'' : LoopState := ⟨st'.counts, st'.processed, st'.queries + 1⟩
          if pageFail batchNum then st''
          else cursorLoop pop vf total abs pageFail fuel
            (queryAfter pop lastRec.id abs) (batchNum + 1) st''

/-- The result dictionaries built from the accumulated counters, shared
verbatim by `process_with_cursor_pagination` (lines 385-399) and
`process_with_small_batches` (lines 484-498). -/
def usageResultsFromCounts (object_name : String) (vf : List (String × String))
    (counts : List Nat) (total processed : Nat) : List UsageResult :=
  (vf.zip counts).map (fun p =>
    let pct : ℚ := if 0 < processed then ((p.2 : ℚ) / (processed : ℚ)) * 100 else 0
    { object := object_name, field := p.1.1, total_records := total,
      non_null_records := p.2, usage_pct := round2 pct,
      is_estimated := some (decide (processed < total)),
      records_analyzed := some processed })

/-- `process_with_cursor_pagination` (lines 293-401).  Only a failure of the
*initial* query raises (`raise Exception("Initial pagination query
failed")`, line 326); the wrapper then reports the loop's final counters. -/
def process_with_cursor_pagination (env : Env) (object_name : String)
    (vf : List (String × String)) (total_record_count batch_size : Nat) :
    Except String (List UsageResult × Nat) :=
  let actual_batch_size := min batch_size 2000
  if env.cursorInitFail then .error "Initial pagination query failed"
  else
    let st := cursorLoop env.pop vf total_record_count actual_batch_size
      env.cursorPageFail (total_record_count + 1) (env.pop.take actual_batch_size) 1
      ⟨vf.map (fun _ => 0), 0, 1⟩
    .ok (usageResultsFromCounts object_name vf st.counts total_record_count st.processed,
      st.queries)

/-- The batch loop of `process_with_small_batches` (lines 427-482): batches
`1..num_batches` at offsets `(i-1)*batch_size`; a failing query is skipped
(`continue`), an empty batch ends the loop. -/
def smallLoop (pop : List Record) (fail : Nat → Bool) (vf : List (String × String))
    (bs : Nat) : Nat → Nat → LoopState → LoopState
  | 0, _, st => st
  | rem + 1, i, st =>
    let st1 : LoopState := ⟨st.counts, st.processed, st.queries + 1⟩
    if fail i then smallLoop pop fail vf bs rem (i + 1) st1
    else
      let records := (pop.drop ((i - 1) * bs)).take bs
      if records.isEmpty then st1
      else smallLoop pop fail vf bs rem (i + 1)
        ⟨zipAdd st1.counts (batchCounts vf records), st1.processed + records.length,
          st1.queries⟩

/-- `process_with_small_batches` (lines 403-500); the call site passes
`batch_size = 500`. -/
def process_with_small_batches (env : Env) (object_name : String)
    (vf : List (String × String)) (total_record_count batch_size : Nat) :
    List UsageResult × Nat :=
  let num_batches := (total_record_count + batch_size - 1) / batch_size
  let st := smallLoop env.pop env.smallBatchFail vf batch_size num_batches 1
    ⟨vf.map (fun _ => 0), 0, 0⟩
  (usageResultsFromCounts object_name vf st.counts total_record_count st.processed,
    st.queries)

/-- The one-query tail of `get_field_usage_batch` (lines 213-291): a single
`SELECT` (with `LIMIT sample_size` when sampling or when the sample is a
strict subset), per-field counting with the column check, and — when
sampling — extrapolation by `int((usage_pct / 100) * total_record_count)`
(`int` truncates; the values here are non-negative, so it is `⌊·⌋`). -/
def singleResults (object_name : String) (vf : List (String × String)) (df : List Record)
    (total sample_size : Nat) (use_sampling : Bool) : List UsageResult :=
  -- per-field loop of lines 243-291; `usage_pct = (non_null_count / len(df)) * 100`,
  -- and when sampling `estimated_non_null = int((usage_pct / 100) * total_record_count)`
  vf.filterMap (fun p =>
    if !(colPresent df p.1) then none
    else
      if use_sampling then
        some { object := object_name, field := p.1, total_records := total,
               non_null_records :=
                 (⌊((((countNonNull p.1 p.2 df : ℚ) / (df.length : ℚ)) * 100) / 100) *
                   (total : ℚ)⌋).toNat,
               usage_pct := round2 (((countNonNull p.1 p.2 df : ℚ) / (df.length : ℚ)) * 100),
               is_estimated := some true, sample_size := some sample_size }
      else
        some { object := object_name, field := p.1, total_records := total,
               non_null_records := countNonNull p.1 p.2 df,
               usage_pct := round2 (((countNonNull p.1 p.2 df : ℚ) / (df.length : ℚ)) * 100),
               is_estimated := some false })

/-- The query of the one-query tail: `LIMIT sample_size` is appended when
sampling or when the sample is a strict subset of the population (line 222);
a failing query returns the empty result list (lines 230-232). -/
def singleQueryPath (env : Env) (object_name : String) (vf : List (String × String))
    (total batch_size : Nat) (use_sampling : Bool) : List UsageResult × Nat :=
  let sample_size := min batch_size total
  if env.singleQueryFail then ([], 1)
  else
    let df := if use_sampling || decide (sample_size < total) then env.pop.take sample_size
      else env.pop
    (singleResults object_name vf df total sample_size use_sampling, 1)

/-- `get_field_usage_batch` (lines 138-291), in the configuration the claims
address (pandas available, fields given as a list).  The second component
counts the record data queries issued (the count and describe queries are
not data queries).  The last-resort fallback to sampling when small-batch
processing *also* raises (lines 208-211) is unreachable here because the
embedded small-batch strategy contains no raising operation. -/
def get_field_usage_batch (env : Env) (object_name : String) (field_names : List String)
    (total_record_count : Option Nat) (batch_size : Nat) (use_full_dataset : Bool) :
    List UsageResult × Nat :=
  let total := total_record_count.getD (get_total_record_count env)
  if total = 0 then
    (field_names.map (fun fn =>
      { object := object_name, field := fn, total_records := 0,
        non_null_records := 0, usage_pct := 0 }), 0)
  else
    let vf := validate_fields_on_object env.schema field_names
    if vf = [] then ([], 0)
    else
      let ufd := if decide (50000 < total) && use_full_dataset then false else use_full_dataset
      let use_sampling := !ufd && decide (batch_size < total)
      if !use_sampling && decide (batch_size < total) then
        match process_with_cursor_pagination env object_name vf total batch_size with
        | .ok rq => rq
        | .error _ => process_with_small_batches env object_name vf total 500
      else
        singleQueryPath env object_name vf total batch_size use_sampling

/-- The first comma-separated component of a field-name argument
(`get_field_usage` lines 514-518). -/
def firstFieldName (s : String) : String :=
  if s.toList.contains ',' then ((s.splitOn ",").headD s).trim else s

/-- The characters that force `get_field_usage` onto the sampling method
(line 566). -/
def specialChars : List Char :=
  ['$', '%', '^', '&', '*', '+', '=', '\x60', '~', '\x22', '\x27', '(', ')',
   '[', ']', '\x7b', '\x7d', '<', '>', '?', '\\', '|']

/-- The per-record non-null test of `get_field_usage`'s sampling method
(lines 584-594 and the duplicate at 645-655): `None` never counts; a dict
counts when some sub-value is non-`None` and truthy; everything else
counts. -/
def altNonNull : Value → Bool
  | .vNull => false
  | .vDict es => ((es.map Prod.snd).filter Value.notna).any Value.truthy
  | _ => true

/-- The "alternative method" of `get_field_usage` (lines 570-610, duplicated
at 632-671): sample up to `min(sample_size, total)` records, count non-null
values, divide by the *requested* sample size, and extrapolate with `int`. -/
def altSample (env : Env) (object_name field_name : String) (total sample_size0 : Nat) :
    Option UsageResult :=
  let sample_size := min sample_size0 total
  if env.singleQueryFail then none
  else
    let records := env.pop.take sample_size
    let c := (records.filter (fun r => altNonNull (r.get field_name))).length
    let pct : ℚ := ((c : ℚ) / (sample_size : ℚ)) * 100
    some { object := object_name, field := field_name, total_records := total,
           non_null_records := (⌊(pct / 100) * (total : ℚ)⌋).toNat,
           usage_pct := round2 pct, is_estimated := some true,
           sample_size := some sample_size }

/-- `get_field_usage` (lines 502-674): the single-field analysis.  `none`
models the Python `return None` error paths. -/
def get_field_usage (env : Env) (object_name field_name0 : String)
    (total_record_count : Option Nat) (sample_size0 : Nat) : Option UsageResult :=
  let field_name := firstFieldName field_name0
  let total := total_record_count.getD (get_total_record_count env)
  if total = 0 then
    some { object := object_name, field := field_name, total_records := 0,
           non_null_records := 0, usage_pct := 0 }
  else
    match env.schema with
    | none => none
    | some fields =>
      match fields.find? (fun f => strLower f.1 == strLower field_name) with
      | none => none
      | some f =>
        let field_type := strLower f.2
        let use_alternative :=
          (["address", "location", "richtext", "base64", "encrypted"].contains field_type)
            || field_name.toList.any (fun c => specialChars.contains c)
        if use_alternative then altSample env object_name field_name total sample_size0
        else
          match env.countNonNullResult with
          | some c =>
            let pct : ℚ := ((c : ℚ) / (total : ℚ)) * 100
            some { object := object_name, field := field_name, total_records := total,
                   non_null_records := c, usage_pct := round2 pct,
                   is_estimated := some false }
          | none => altSample env object_name field_name total sample_size0

/-! ## Lemmas about the fuzzy matcher -/

theorem listIsPref_self : ∀ l : List Char, listIsPref l l = true
  | [] => rfl
  | a :: as => by simp [listIsPref, listIsPref_self as]

theorem hasSub_self : ∀ l : List Char, hasSub l l = true
  | [] => rfl
  | a :: as => by simp [hasSub, listIsPref_self]

theorem hasSub_empty_needle : ∀ hay : List Char, hasSub [] hay = true
  | [] => rfl
  | _ :: _ => by simp [hasSub, listIsPref]

theorem hasSub_nil {needle : List Char} (h : needle ≠ []) : hasSub needle [] = false := by
  cases needle with
  | nil => exact absurd rfl h
  | cons c t => simp [hasSub, listIsPref]

theorem cleanRunLen_le_left (b0 : List Char) :
    ∀ xs ys : List Char, cleanRunLen b0 xs ys ≤ xs.length
  | [], _ => by simp [cleanRunLen]
  | _ :: _, [] => by simp [cleanRunLen]
  | x :: xs, y :: ys => by
    simp only [cleanRunLen, List.length_cons]
    split
    · exact Nat.succ_le_succ (cleanRunLen_le_left b0 xs ys)
    · exact Nat.zero_le _

theorem cleanRunLen_le_right (b0 : List Char) :
    ∀ xs ys : List Char, cleanRunLen b0 xs ys ≤ ys.length
  | [], _ => by simp [cleanRunLen]
  | _ :: _, [] => by simp [cleanRunLen]
  | x :: xs, y :: ys => by
    simp only [cleanRunLen, List.length_cons]
    split
    · exact Nat.succ_le_succ (cleanRunLen_le_right b0 xs ys)
    · exact Nat.zero_le _

theorem window_length_le (l : List Char) (lo hi : Nat) : (window l lo hi).length ≤ hi - lo := by
  simp [window, List.length_take]

theorem foldl_preserve {α β : Type} (P : α → Prop) (f : α → β → α) :
    ∀ (l : List β) (init : α), P init → (∀ acc x, x ∈ l → P acc → P (f acc x)) →
      P (l.foldl f init)
  | [], _, h, _ => h
  | x :: xs, init, h, hstep =>
    foldl_preserve P f xs (f init x) (hstep init x (by simp) h)
      (fun acc y hy hacc => hstep acc y (by simp [hy]) hacc)

theorem dpBest_bounds (a b : List Char) (alo ahi blo bhi : Nat)
    (ha : alo ≤ ahi) (hb : blo ≤ bhi) :
    alo ≤ (dpBest a b alo ahi blo bhi).1 ∧
      (dpBest a b alo ahi blo bhi).1 + (dpBest a b alo ahi blo bhi).2.2 ≤ ahi ∧
      blo ≤ (dpBest a b alo ahi blo bhi).2.1 ∧
      (dpBest a b alo ahi blo bhi).2.1 + (dpBest a b alo ahi blo bhi).2.2 ≤ bhi := by
  unfold dpBest
  refine foldl_preserve
    (fun m : Nat × Nat × Nat => alo ≤ m.1 ∧ m.1 + m.2.2 ≤ ahi ∧ blo ≤ m.2.1 ∧ m.2.1 + m.2.2 ≤ bhi)
    _ _ _ ⟨le_refl _, by simpa using ha, le_refl _, by simpa using hb⟩ ?_
  intro acc di hdi hacc
  refine foldl_preserve
    (fun m : Nat × Nat × Nat => alo ≤ m.1 ∧ m.1 + m.2.2 ≤ ahi ∧ blo ≤ m.2.1 ∧ m.2.1 + m.2.2 ≤ bhi)
    _ _ _ hacc ?_
  intro acc2 dj hdj hacc2
  dsimp only
  split
  · dsimp only
    have hdi' : di < ahi - alo := List.mem_range.mp hdi
    have hdj' : dj < bhi - blo := List.mem_range.mp hdj
    have h1 : cleanRunLen b (window a (alo + di) ahi) (window b (blo + dj) bhi) ≤
        ahi - (alo + di) :=
      le_trans (cleanRunLen_le_left b _ _) (window_length_le a (alo + di) ahi)
    have h2 : cleanRunLen b (window a (alo + di) ahi) (window b (blo + dj) bhi) ≤
        bhi - (blo + dj) :=
      le_trans (cleanRunLen_le_right b _ _) (window_length_le b (blo + dj) bhi)
    exact ⟨by omega, by omega, by omega, by omega⟩
  · exact hacc2

theorem extendLeft_bounds (a b : List Char) (alo blo ahi bhi : Nat) :
    ∀ (fuel i j k : Nat), alo ≤ i → blo ≤ j → i + k ≤ ahi → j + k ≤ bhi →
      alo ≤ (extendLeft a b alo blo fuel i j k).1 ∧
        blo ≤ (extendLeft a b alo blo fuel i j k).2.1 ∧
        (extendLeft a b alo blo fuel i j k).1 +
            (extendLeft a b alo blo fuel i j k).2.2 ≤ ahi ∧
        (extendLeft a b alo blo fuel i j k).2.1 +
            (extendLeft a b alo blo fuel i j k).2.2 ≤ bhi
  | 0, i, j, k, h1, h2, h3, h4 => by
    simp only [extendLeft]
    exact ⟨h1, h2, h3, h4⟩
  | fuel + 1, i, j, k, h1, h2, h3, h4 => by
    simp only [extendLeft]
    split
    · rename_i hcond
      simp only [Bool.and_eq_true, decide_eq_true_eq] at hcond
      exact extendLeft_bounds a b alo blo ahi bhi fuel (i - 1) (j - 1) (k + 1)
        (by omega) (by omega) (by omega) (by omega)
    · exact ⟨h1, h2, h3, h4⟩

theorem extendRight_le (a b : List Char) (ahi bhi i j : Nat) :
    ∀ (fuel k : Nat), i + k ≤ ahi → j + k ≤ bhi →
      i + extendRight a b ahi bhi i j fuel k ≤ ahi ∧
        j + extendRight a b ahi bhi i j fuel k ≤ bhi
  | 0, k, h1, h2 => by
    simp only [extendRight]
    exact ⟨h1, h2⟩
  | fuel + 1, k, h1, h2 => by
    simp only [extendRight]
    split
    · rename_i hcond
      simp only [Bool.and_eq_true, decide_eq_true_eq] at hcond
      exact extendRight_le a b ahi bhi i j fuel (k + 1) (by omega) (by omega)
    · exact ⟨h1, h2⟩

theorem longestMatch_bounds (a b : List Char) (alo ahi blo bhi : Nat)
    (ha : alo ≤ ahi) (hb : blo ≤ bhi) :
    alo ≤ (longestMatch a b alo ahi blo bhi).1 ∧
      (longestMatch a b alo ahi blo bhi).1 + (longestMatch a b alo ahi blo bhi).2.2 ≤ ahi ∧
      blo ≤ (longestMatch a b alo ahi blo bhi).2.1 ∧
      (longestMatch a b alo ahi blo bhi).2.1 + (longestMatch a b alo ahi blo bhi).2.2 ≤ bhi := by
  have hdp := dpBest_bounds a b alo ahi blo bhi ha hb
  have hext := extendLeft_bounds a b alo blo ahi bhi (dpBest a b alo ahi blo bhi).1
    (dpBest a b alo ahi blo bhi).1 (dpBest a b alo ahi blo bhi).2.1
    (dpBest a b alo ahi blo bhi).2.2 hdp.1 hdp.2.2.1 hdp.2.1 hdp.2.2.2
  have hr := extendRight_le a b ahi bhi
    (extendLeft a b alo blo (dpBest a b alo ahi blo bhi).1 (dpBest a b alo ahi blo bhi).1
      (dpBest a b alo ahi blo bhi).2.1 (dpBest a b alo ahi blo bhi).2.2).1
    (extendLeft a b alo blo (dpBest a b alo ahi blo bhi).1 (dpBest a b alo ahi blo bhi).1
      (dpBest a b alo ahi blo bhi).2.1 (dpBest a b alo ahi blo bhi).2.2).2.1
    (ahi - (extendLeft a b alo blo (dpBest a b alo ahi blo bhi).1
      (dpBest a b alo ahi blo bhi).1 (dpBest a b alo ahi blo bhi).2.1
      (dpBest a b alo ahi blo bhi).2.2).1)
    (extendLeft a b alo blo (dpBest a b alo ahi blo bhi).1 (dpBest a b alo ahi blo bhi).1
      (dpBest a b alo ahi blo bhi).2.1 (dpBest a b alo ahi blo bhi).2.2).2.2
    hext.2.2.1 hext.2.2.2
  unfold longestMatch
  dsimp only
  exact ⟨hext.1, by omega, hext.2.1, by omega⟩

theorem blocksSum_le_left (a b : List Char) :
    ∀ (fuel alo ahi blo bhi : Nat), alo ≤ ahi → blo ≤ bhi →
      blocksSum a b fuel alo ahi blo bhi ≤ ahi - alo
  | 0, _, _, _, _, _, _ => by simp [blocksSum]
  | fuel + 1, alo, ahi, blo, bhi, ha, hb => by
    have hm := longestMatch_bounds a b alo ahi blo bhi ha hb
    simp only [blocksSum]
    split
    · omega
    · have hl := blocksSum_le_left a b fuel alo (longestMatch a b alo ahi blo bhi).1 blo
        (longestMatch a b alo ahi blo bhi).2.1 (by omega) (by omega)
      have hr := blocksSum_le_left a b fuel
        ((longestMatch a b alo ahi blo bhi).1 + (longestMatch a b alo ahi blo bhi).2.2) ahi
        ((longestMatch a b alo ahi blo bhi).2.1 + (longestMatch a b alo ahi blo bhi).2.2) bhi
        (by omega) (by omega)
      omega

theorem blocksSum_le_right (a b : List Char) :
    ∀ (fuel alo ahi blo bhi : Nat), alo ≤ ahi → blo ≤ bhi →
      blocksSum a b fuel alo ahi blo bhi ≤ bhi - blo
  | 0, _, _, _, _, _, _ => by simp [blocksSum]
  | fuel + 1, alo, ahi, blo, bhi, ha, hb => by
    have hm := longestMatch_bounds a b alo ahi blo bhi ha hb
    simp only [blocksSum]
    split
    · omega
    · have hl := blocksSum_le_right a b fuel alo (longestMatch a b alo ahi blo bhi).1 blo
        (longestMatch a b alo ahi blo bhi).2.1 (by omega) (by omega)
      have hr := blocksSum_le_right a b fuel
        ((longestMatch a b alo ahi blo bhi).1 + (longestMatch a b alo ahi blo bhi).2.2) ahi
        ((longestMatch a b alo ahi blo bhi).2.1 + (longestMatch a b alo ahi blo bhi).2.2) bhi
        (by omega) (by omega)
      omega

theorem matchTotal_le_left (a b : List Char) : matchTotal a b ≤ a.length :=
  le_trans (blocksSum_le_left a b _ 0 a.length 0 b.length (Nat.zero_le _) (Nat.zero_le _))
    (by omega)

theorem matchTotal_le_right (a b : List Char) : matchTotal a b ≤ b.length :=
  le_trans (blocksSum_le_right a b _ 0 a.length 0 b.length (Nat.zero_le _) (Nat.zero_le _))
    (by omega)

theorem similarity_nonneg (a b : List Char) : 0 ≤ similarity a b := by
  unfold similarity
  split
  · norm_num
  · positivity

theorem similarity_le_one (a b : List Char) : similarity a b ≤ 1 := by
  unfold similarity
  split
  · exact le_refl 1
  · rename_i h
    rw [div_le_one (by exact_mod_cast Nat.pos_of_ne_zero h)]
    have h1 : matchTotal a b ≤ a.length := matchTotal_le_left a b
    have h2 : matchTotal a b ≤ b.length := matchTotal_le_right a b
    have h3 : 2 * matchTotal a b ≤ a.length + b.length := by omega
    exact_mod_cast h3

theorem similarity_nil_right {a : List Char} (h : a ≠ []) : similarity a [] = 0 := by
  have hM : matchTotal a [] = 0 := Nat.le_zero.mp (matchTotal_le_right a [])
  have hl : a.length ≠ 0 := fun hc => h (List.length_eq_zero.mp hc)
  unfold similarity
  simp [hM, hl]

/-! ## Claim theorems: fuzzy matcher -/

/-- C7: for every lowercasing function — Python's full Unicode
`str.lower()` included — and every term, text and threshold, the fuzzy
matcher returns false on a null text, and on a non-null text returns true
exactly when the term is a substring of the text after lowercasing, or the
similarity ratio of the lowered strings — a quantity that always lies in
`[0, 1]` — is at least the threshold.  The executable `fuzzy_match` is the
instance of this shape at the ASCII case map. -/
theorem C7_fuzzy_match_contract :
    (∀ (lower : String → List Char) (term : String) (thr : ℚ),
      fuzzy_match_gen lower term none thr = false) ∧
    (∀ (lower : String → List Char) (term t : String) (thr : ℚ),
      fuzzy_match_gen lower term (some t) thr = true ↔
        (hasSub (lower term) (lower t) = true ∨
          thr ≤ similarity (lower term) (lower t))) ∧
    (∀ a b : List Char, 0 ≤ similarity a b ∧ similarity a b ≤ 1) ∧
    fuzzy_match = fuzzy_match_gen (fun s => lowerList s.toList) := by
  refine ⟨fun _ _ _ => rfl, fun lower term t thr => ?_,
    fun a b => ⟨similarity_nonneg a b, similarity_le_one a b⟩, rfl⟩
  have h : fuzzy_match_gen lower term (some t) thr =
      (if hasSub (lower term) (lower t) then true
       else decide (thr ≤ similarity (lower term) (lower t))) := rfl
  rw [h]
  by_cases hs : hasSub (lower term) (lower t) = true
  · simp [hs]
  · simp [hs]

/-- C8: matching a term against itself succeeds for every threshold at most
1, and a non-empty term never matches the empty text for a positive
threshold. -/
theorem C8_fuzzy_match_endpoints :
    (∀ (term : String) (thr : ℚ), thr ≤ 1 → fuzzy_match term (some term) thr = true) ∧
    (∀ (term : String) (thr : ℚ), term ≠ "" → 0 < thr →
      fuzzy_match term (some "") thr = false) := by
  constructor
  · intro term thr _
    have h : fuzzy_match term (some term) thr =
        (if hasSub (lowerList term.toList) (lowerList term.toList) then true
         else decide (thr ≤ similarity (lowerList term.toList) (lowerList term.toList))) :=
      rfl
    rw [h, hasSub_self]
    rfl
  · intro term thr hne hpos
    have hlist : term.toList ≠ [] := by
      intro hc
      apply hne
      cases term with
      | mk data =>
        simp only [String.toList] at hc
        subst hc
        rfl
    have hlow : lowerList term.toList ≠ [] := by
      intro hc
      exact hlist (List.map_eq_nil_iff.mp hc)
    have h : fuzzy_match term (some "") thr =
        (if hasSub (lowerList term.toList) [] then true
         else decide (thr ≤ similarity (lowerList term.toList) [])) := rfl
    rw [h, hasSub_nil hlow, similarity_nil_right hlow]
    simp only [Bool.false_eq_true, if_false, decide_eq_false_iff_not, not_le]
    exact hpos

/-- Witness for C8 at a concrete term and threshold. -/
theorem C8_fuzzy_match_endpoints_witness :
    (((1 : ℚ) / 2 ≤ 1 ∧ fuzzy_match "abc" (some "abc") (1 / 2) = true) ∧
      ("abc" ≠ "" ∧ (0 : ℚ) < 1 / 2 ∧ fuzzy_match "abc" (some "") (1 / 2) = false)) :=
  ⟨⟨by norm_num, C8_fuzzy_match_endpoints.1 "abc" (1 / 2) (by norm_num)⟩,
    ⟨by decide, by norm_num,
      C8_fuzzy_match_endpoints.2 "abc" (1 / 2) (by decide) (by norm_num)⟩⟩

/-- C10: an empty search term fuzzy-matches every non-null text, because the
empty string is a substring of every string. -/
theorem C10_empty_term_matches (t : String) (thr : ℚ) :
    fuzzy_match "" (some t) thr = true := by
  have h : fuzzy_match "" (some t) thr =
      (if hasSub [] (lowerList t.toList) then true
       else decide (thr ≤ similarity [] (lowerList t.toList))) := rfl
  rw [h, hasSub_empty_needle]
  rfl

/-! ## Arithmetic lemmas for the usage statistics -/

theorem round2_bounds {q : ℚ} (h0 : 0 ≤ q) (h1 : q ≤ 100) :
    0 ≤ round2 q ∧ round2 q ≤ 100 := by
  have hlow : (0 : ℤ) ≤ round (q * 100) := by
    rw [round_eq]
    have : (0 : ℤ) = ⌊(0 : ℚ) + 1 / 2⌋ := by norm_num
    rw [this]
    apply Int.floor_mono
    linarith
  have hhigh : round (q * 100) ≤ 10000 := by
    rw [round_eq]
    have h2 : ⌊(10000 : ℚ) + 1 / 2⌋ = 10000 := by norm_num
    calc ⌊q * 100 + 1 / 2⌋ ≤ ⌊(10000 : ℚ) + 1 / 2⌋ := Int.floor_mono (by linarith)
      _ = 10000 := h2
  constructor
  · unfold round2
    positivity
  · unfold round2
    rw [div_le_iff₀ (by norm_num : (0 : ℚ) < 100)]
    exact_mod_cast hhigh

theorem pct_bounds {c n : Nat} (h : c ≤ n) :
    0 ≤ ((c : ℚ) / (n : ℚ)) * 100 ∧ ((c : ℚ) / (n : ℚ)) * 100 ≤ 100 := by
  constructor
  · positivity
  · rcases Nat.eq_zero_or_pos n with hn | hn
    · subst hn
      interval_cases c
      simp
    · have hfrac : (c : ℚ) / (n : ℚ) ≤ 1 := by
        rw [div_le_one (by exact_mod_cast hn)]
        exact_mod_cast h
      nlinarith [hfrac]

theorem countNonNull_le (field_name field_type : String) (df : List Record) :
    countNonNull field_name field_type df ≤ df.length := by
  unfold countNonNull
  split
  · split
    · exact List.length_filter_le _ _
    · exact List.length_filter_le _ _
  · exact List.length_filter_le _ _

theorem extrap_le {pct : ℚ} {total : Nat} (h1 : pct ≤ 100) :
    (⌊(pct / 100) * (total : ℚ)⌋).toNat ≤ total := by
  have hle : (pct / 100) * (total : ℚ) ≤ (total : ℚ) := by
    have : pct / 100 ≤ 1 := by linarith
    nlinarith [Nat.cast_nonneg (α := ℚ) total]
  have hfloor : ⌊(pct / 100) * (total : ℚ)⌋ ≤ (total : ℤ) := by
    calc ⌊(pct / 100) * (total : ℚ)⌋ ≤ ⌊((total : ℤ) : ℚ)⌋ := by
          apply Int.floor_mono
          exact_mod_cast hle
      _ = (total : ℤ) := Int.floor_intCast _
  omega

theorem batchCounts_le (vf : List (String × String)) (df : List Record) :
    ∀ c ∈ batchCounts vf df, c ≤ df.length := by
  intro c hc
  unfold batchCounts at hc
  rcases List.mem_map.mp hc with ⟨p, _, rfl⟩
  split
  · exact countNonNull_le _ _ _
  · exact Nat.zero_le _

theorem zipAdd_le {p q : Nat} :
    ∀ (xs ys : List Nat), (∀ c ∈ xs, c ≤ p) → (∀ c ∈ ys, c ≤ q) →
      ∀ c ∈ zipAdd xs ys, c ≤ p + q
  | [], _, _, _ => by simp [zipAdd]
  | _ :: _, [], _, _ => by simp [zipAdd]
  | x :: xs, y :: ys, hx, hy => by
    intro c hc
    simp only [zipAdd, List.zipWith_cons_cons, List.mem_cons] at hc
    rcases hc with rfl | hc
    · exact Nat.add_le_add (hx x (by simp)) (hy y (by simp))
    · exact zipAdd_le xs ys (fun c hc => hx c (by simp [hc])) (fun c hc => hy c (by simp [hc])) c hc

theorem mem_usageResultsFromCounts {r : UsageResult} {object_name : String}
    {vf : List (String × String)} {counts : List Nat} {total processed : Nat}
    (h : r ∈ usageResultsFromCounts object_name vf counts total processed) :
    r.non_null_records ∈ counts ∧ r.total_records = total ∧
      r.is_estimated = some (decide (processed < total)) ∧
      r.records_analyzed = some processed ∧
      r.usage_pct = round2 (if 0 < processed then
        ((r.non_null_records : ℚ) / (processed : ℚ)) * 100 else 0) := by
  unfold usageResultsFromCounts at h
  rcases List.mem_map.mp h with ⟨p, hp, rfl⟩
  exact ⟨(List.of_mem_zip hp).2, rfl, rfl, rfl, rfl⟩

/-! ## Lemmas about the pagination loops -/

theorem filter_gt_getElem : ∀ (l : List Record),
    l.Pairwise (fun a b => a.id < b.id) →
    ∀ (k : Nat) (hk : k < l.length),
      l.filter (fun r => decide (l[k].id < r.id)) = l.drop (k + 1)
  | [], _, k, hk => by simp at hk
  | a :: t, hs, k, hk => by
    have ha : ∀ b ∈ t, a.id < b.id := (List.pairwise_cons.mp hs).1
    have ht : t.Pairwise (fun a b => a.id < b.id) := (List.pairwise_cons.mp hs).2
    cases k with
    | zero =>
      simp only [List.getElem_cons_zero, List.drop_succ_cons, List.drop_zero]
      rw [List.filter_cons]
      rw [decide_eq_false (lt_irrefl a.id)]
      simp only [Bool.false_eq_true, if_false]
      exact List.filter_eq_self.mpr (fun b hb => decide_eq_true (ha b hb))
    | succ k =>
      have hk' : k < t.length := by simpa using hk
      have hget : (a :: t)[k + 1] = t[k] := List.getElem_cons_succ ..
      rw [hget]
      rw [List.filter_cons]
      have hna : ¬(t[k].id < a.id) := by
        have := ha t[k] (List.getElem_mem hk')
        omega
      rw [decide_eq_false hna]
      simp only [Bool.false_eq_true, if_false]
      rw [List.drop_succ_cons]
      exact filter_gt_getElem t ht k hk'

theorem getLast_take_drop (pop : List Record) (p n : Nat)
    (hne : (pop.drop p).take n ≠ []) :
    ∃ hk : p + ((pop.drop p).take n).length - 1 < pop.length,
      ((pop.drop p).take n).getLast hne =
        pop[p + ((pop.drop p).take n).length - 1] := by
  have hL : 0 < ((pop.drop p).take n).length := List.length_pos.mpr hne
  have hLle : ((pop.drop p).take n).length ≤ pop.length - p := by
    rw [List.length_take, List.length_drop]
    omega
  have hplt : p < pop.length := by omega
  have hk : p + ((pop.drop p).take n).length - 1 < pop.length := by omega
  refine ⟨hk, ?_⟩
  rw [List.getLast_eq_getElem]
  have hidx : ((pop.drop p).take n).length - 1 < ((pop.drop p).take n).length := by omega
  rw [List.getElem_take]
  rw [List.getElem_drop]
  congr 1
  omega

theorem queryAfter_shape (pop : List Record)
    (hsort : pop.Pairwise (fun a b => a.id < b.id)) (p n limit : Nat)
    (hne : (pop.drop p).take n ≠ []) :
    queryAfter pop (((pop.drop p).take n).getLast hne).id limit =
      (pop.drop (p + ((pop.drop p).take n).length)).take limit := by
  obtain ⟨hk, hlast⟩ := getLast_take_drop pop p n hne
  have hL : 0 < ((pop.drop p).take n).length := List.length_pos.mpr hne
  unfold queryAfter
  rw [hlast]
  rw [filter_gt_getElem pop hsort _ hk]
  have harith : p + ((pop.drop p).take n).length - 1 + 1 =
      p + ((pop.drop p).take n).length := by omega
  rw [harith]

theorem cursorLoop_inv (pop : List Record) (vf : List (String × String)) (total abs : Nat)
    (pf : Nat → Bool) (hsort : pop.Pairwise (fun a b => a.id < b.id)) :
    ∀ (fuel p bn : Nat) (st : LoopState),
      st.processed = p → p ≤ pop.length → (∀ c ∈ st.counts, c ≤ p) →
      ((cursorLoop pop vf total abs pf fuel ((pop.drop p).take abs) bn st).processed
          ≤ pop.length ∧
        ∀ c ∈ (cursorLoop pop vf total abs pf fuel ((pop.drop p).take abs) bn st).counts,
          c ≤ (cursorLoop pop vf total abs pf fuel ((pop.drop p).take abs) bn st).processed)
  | 0, p, bn, st, hp, hple, hcnt => by
    simp only [cursorLoop]
    exact ⟨hp ▸ hple, fun c hc => hp ▸ hcnt c hc⟩
  | fuel + 1, p, bn, st, hp, hple, hcnt => by
    by_cases hcur : (pop.drop p).take abs = []
    · simp only [cursorLoop, hcur, List.isEmpty_nil, if_true]
      exact ⟨hp ▸ hple, fun c hc => hp ▸ hcnt c hc⟩
    · have hLle : ((pop.drop p).take abs).length ≤ pop.length - p := by
        rw [List.length_take, List.length_drop]
        omega
      have hple' : p + ((pop.drop p).take abs).length ≤ pop.length := by omega
      have hcnt' : ∀ c ∈ zipAdd st.counts (batchCounts vf ((pop.drop p).take abs)),
          c ≤ p + ((pop.drop p).take abs).length :=
        zipAdd_le st.counts (batchCounts vf ((pop.drop p).take abs))
          (fun c hc => hp ▸ hcnt c hc) (batchCounts_le vf _)
      have hie : ((pop.drop p).take abs).isEmpty = false := by
        rw [List.isEmpty_eq_false_iff_exists_mem]
        rcases List.exists_mem_of_ne_nil _ hcur with ⟨x, hx⟩
        exact ⟨x, hx⟩
      simp only [cursorLoop, hie, Bool.false_eq_true, if_false]
      split
      · exact ⟨by simpa [hp] using hple', fun c hc => by simpa [hp] using hcnt' c hc⟩
      · rename_i hnot
        rw [List.getLast?_eq_getLast _ hcur]
        simp only []
        split
        · exact ⟨by simpa [hp] using hple', fun c hc => by simpa [hp] using hcnt' c hc⟩
        · rw [queryAfter_shape pop hsort p abs abs hcur]
          have := cursorLoop_inv pop vf total abs pf hsort fuel
            (p + ((pop.drop p).take abs).length) (bn + 1)
            ⟨zipAdd st.counts (batchCounts vf ((pop.drop p).take abs)),
              st.processed + ((pop.drop p).take abs).length, st.queries + 1⟩
            (by simp [hp]) hple' (fun c hc => by simpa [hp] using hcnt' c hc)
          exact this

theorem cursorLoop_complete (pop : List Record) (vf : List (String × String)) (abs : Nat)
    (pf : Nat → Bool) (hsort : pop.Pairwise (fun a b => a.id < b.id))
    (habs : 0 < abs) (hpf : ∀ n, pf n = false) :
    ∀ (fuel p bn : Nat) (st : LoopState),
      st.processed = p → p ≤ pop.length → pop.length ≤ p + fuel * abs →
      (cursorLoop pop vf pop.length abs pf fuel ((pop.drop p).take abs) bn st).processed
        = pop.length
  | 0, p, bn, st, hp, hple, hfuel => by
    simp only [cursorLoop]
    omega
  | fuel + 1, p, bn, st, hp, hple, hfuel => by
    have hLmin : ((pop.drop p).take abs).length = min abs (pop.length - p) := by
      rw [List.length_take, List.length_drop]
    by_cases hcur : (pop.drop p).take abs = []
    · have hL0 : ((pop.drop p).take abs).length = 0 := by simp [hcur]
      simp only [cursorLoop, hcur, List.isEmpty_nil, if_true]
      omega
    · have hie : ((pop.drop p).take abs).isEmpty = false := by
        rw [List.isEmpty_eq_false_iff_exists_mem]
        rcases List.exists_mem_of_ne_nil _ hcur with ⟨x, hx⟩
        exact ⟨x, hx⟩
      have hLpos : 0 < ((pop.drop p).take abs).length := List.length_pos.mpr hcur
      simp only [cursorLoop, hie, Bool.false_eq_true, if_false]
      split
      · rename_i hstop
        simp only [hp] at hstop ⊢
        omega
      · rename_i hgo
        simp only [hp] at hgo
        push_neg at hgo
        have hLabs : ((pop.drop p).take abs).length = abs := by omega
        rw [List.getLast?_eq_getLast _ hcur]
        simp only []
        rw [hpf bn]
        simp only [Bool.false_eq_true, if_false]
        rw [queryAfter_shape pop hsort p abs abs hcur]
        have hmul : (fuel + 1) * abs = fuel * abs + abs := by ring
        have := cursorLoop_complete pop vf abs pf hsort habs hpf fuel
          (p + ((pop.drop p).take abs).length) (bn + 1)
          ⟨zipAdd st.counts (batchCounts vf ((pop.drop p).take abs)),
            st.processed + ((pop.drop p).take abs).length, st.queries + 1⟩
          (by simp [hp]) (by omega) (by omega)
        exact this

theorem smallLoop_inv (pop : List Record) (vf : List (String × String)) (bs : Nat)
    (fail : Nat → Bool) :
    ∀ (rem i : Nat) (st : LoopState), 1 ≤ i →
      st.processed ≤ (i - 1) * bs → st.processed ≤ pop.length →
      (∀ c ∈ st.counts, c ≤ st.processed) →
      ((smallLoop pop fail vf bs rem i st).processed ≤ pop.length ∧
        ∀ c ∈ (smallLoop pop fail vf bs rem i st).counts,
          c ≤ (smallLoop pop fail vf bs rem i st).processed)
  | 0, i, st, hi, hoff, hple, hcnt => by
    simp only [smallLoop]
    exact ⟨hple, hcnt⟩
  | rem + 1, i, st, hi, hoff, hple, hcnt => by
    have hib : (i - 1) * bs + bs = i * bs := by
      cases i with
      | zero => omega
      | succ n => simp [Nat.succ_sub_one, Nat.succ_mul]
    simp only [smallLoop]
    split
    · exact smallLoop_inv pop vf bs fail rem (i + 1)
        ⟨st.counts, st.processed, st.queries + 1⟩ (by omega)
        (by simp only [Nat.add_sub_cancel]; omega) hple hcnt
    · split
      · exact ⟨hple, hcnt⟩
      · rename_i hfail hne
        have hne' : (pop.drop ((i - 1) * bs)).take bs ≠ [] := by
          intro hc
          apply hne
          rw [hc]
          rfl
        have hlt : (i - 1) * bs < pop.length := by
          by_contra hge
          push_neg at hge
          apply hne'
          rw [List.drop_eq_nil_of_le hge]
          simp
        have hLle : ((pop.drop ((i - 1) * bs)).take bs).length ≤ pop.length - (i - 1) * bs := by
          rw [List.length_take, List.length_drop]
          omega
        have hLbs : ((pop.drop ((i - 1) * bs)).take bs).length ≤ bs := by
          rw [List.length_take]
          omega
        exact smallLoop_inv pop vf bs fail rem (i + 1)
          ⟨zipAdd st.counts (batchCounts vf ((pop.drop ((i - 1) * bs)).take bs)),
            st.processed + ((pop.drop ((i - 1) * bs)).take bs).length, st.queries + 1⟩
          (by omega)
          (by dsimp only; simp only [Nat.add_sub_cancel]; omega)
          (by dsimp only; omega)
          (zipAdd_le st.counts _ hcnt (batchCounts_le vf _))

/-! ## Result-shape lemmas -/

theorem usageResults_bounds {obj : String} {vf : List (String × String)}
    {counts : List Nat} {total processed : Nat}
    (hcnt : ∀ c ∈ counts, c ≤ processed) (hple : processed ≤ total) :
    ∀ r ∈ usageResultsFromCounts obj vf counts total processed,
      0 ≤ r.usage_pct ∧ r.usage_pct ≤ 100 ∧ r.non_null_records ≤ r.total_records := by
  intro r hr
  obtain ⟨hcmem, htot, _, _, hpct⟩ := mem_usageResultsFromCounts hr
  have hc : r.non_null_records ≤ processed := hcnt _ hcmem
  have hb : 0 ≤ (if 0 < processed then ((r.non_null_records : ℚ) / (processed : ℚ)) * 100 else 0) ∧
      (if 0 < processed then ((r.non_null_records : ℚ) / (processed : ℚ)) * 100 else 0) ≤ 100 := by
    split
    · exact pct_bounds hc
    · norm_num
  have := round2_bounds hb.1 hb.2
  rw [hpct, htot]
  exact ⟨this.1, this.2, by omega⟩

theorem mem_singleResults {r : UsageResult} {obj : String} {vf : List (String × String)}
    {df : List Record} {total sample_size : Nat} {us : Bool}
    (h : r ∈ singleResults obj vf df total sample_size us) :
    ∃ p ∈ vf, colPresent df p.1 = true ∧
      r = (if us then
        { object := obj, field := p.1, total_records := total,
          non_null_records :=
            (⌊((((countNonNull p.1 p.2 df : ℚ) / (df.length : ℚ)) * 100) / 100) *
              (total : ℚ)⌋).toNat,
          usage_pct := round2 (((countNonNull p.1 p.2 df : ℚ) / (df.length : ℚ)) * 100),
          is_estimated := some true, sample_size := some sample_size }
      else
        { object := obj, field := p.1, total_records := total,
          non_null_records := countNonNull p.1 p.2 df,
          usage_pct := round2 (((countNonNull p.1 p.2 df : ℚ) / (df.length : ℚ)) * 100),
          is_estimated := some false }) := by
  unfold singleResults at h
  rcases List.mem_filterMap.mp h with ⟨p, hp, hval⟩
  refine ⟨p, hp, ?_, ?_⟩
  · by_contra hcol
    have : colPresent df p.1 = false := by
      cases hcp : colPresent df p.1
      · rfl
      · exact absurd hcp hcol
    rw [this] at hval
    simp at hval
  · have hcol : colPresent df p.1 = true := by
      cases hcp : colPresent df p.1
      · rw [hcp] at hval
        simp at hval
      · rfl
    rw [hcol] at hval
    cases us
    · simp only [Bool.not_true, Bool.false_eq_true, if_false] at hval ⊢
      exact (Option.some_inj.mp hval).symm
    · simp only [Bool.not_true, Bool.false_eq_true, if_false, if_true] at hval ⊢
      exact (Option.some_inj.mp hval).symm

theorem singleResults_bounds {obj : String} {vf : List (String × String)}
    {df : List Record} {total sample_size : Nat} {us : Bool}
    (hdf : df.length ≤ total) :
    ∀ r ∈ singleResults obj vf df total sample_size us,
      0 ≤ r.usage_pct ∧ r.usage_pct ≤ 100 ∧ r.non_null_records ≤ r.total_records := by
  intro r hr
  obtain ⟨p, _, _, hreq⟩ := mem_singleResults hr
  have hcle : countNonNull p.1 p.2 df ≤ df.length := countNonNull_le _ _ _
  have hpct := pct_bounds (n := df.length) hcle
  have hr2 := round2_bounds hpct.1 hpct.2
  cases us
  · simp only [Bool.false_eq_true, if_false] at hreq
    subst hreq
    exact ⟨hr2.1, hr2.2, by dsimp only; omega⟩
  · simp only [if_true] at hreq
    subst hreq
    refine ⟨hr2.1, hr2.2, ?_⟩
    dsimp only
    exact extrap_le hpct.2

theorem singleResults_not_estimated {obj : String} {vf : List (String × String)}
    {df : List Record} {total sample_size : Nat} :
    ∀ r ∈ singleResults obj vf df total sample_size false,
      r.is_estimated = some false ∧ r.records_analyzed = none := by
  intro r hr
  obtain ⟨p, _, _, hreq⟩ := mem_singleResults hr
  simp only [Bool.false_eq_true, if_false] at hreq
  subst hreq
  exact ⟨rfl, rfl⟩

theorem singleResults_sampling_shape {obj : String} {vf : List (String × String)}
    {df : List Record} {total sample_size : Nat} :
    ∀ r ∈ singleResults obj vf df total sample_size true,
      r.is_estimated = some true ∧
        ∃ p ∈ vf, r.field = p.1 ∧
          r.non_null_records =
            (⌊((countNonNull p.1 p.2 df : ℚ) / (df.length : ℚ)) * (total : ℚ)⌋).toNat := by
  intro r hr
  obtain ⟨p, hp, _, hreq⟩ := mem_singleResults hr
  simp only [if_true] at hreq
  subst hreq
  refine ⟨rfl, p, hp, rfl, ?_⟩
  dsimp only
  congr 2
  rw [mul_div_assoc]
  norm_num

/-! ## Dispatch lemmas for `get_field_usage_batch` -/

theorem batch_zero (env : Env) (obj : String) (fns : List String) (tc : Option Nat)
    (bs : Nat) (ufd : Bool) (h : tc.getD (get_total_record_count env) = 0) :
    get_field_usage_batch env obj fns tc bs ufd =
      (fns.map (fun fn =>
        { object := obj, field := fn, total_records := 0,
          non_null_records := 0, usage_pct := 0 }), 0) := by
  unfold get_field_usage_batch
  rw [h]
  rfl

theorem batch_dispatch_pagination (env : Env) (obj : String) (fns : List String)
    (tc : Option Nat) (total bs : Nat)
    (htc : tc.getD (get_total_record_count env) = total)
    (htot : total ≠ 0) (hceil : total ≤ 50000) (hbs : bs < total)
    (hvf : validate_fields_on_object env.schema fns ≠ []) :
    get_field_usage_batch env obj fns tc bs true =
      match process_with_cursor_pagination env obj
          (validate_fields_on_object env.schema fns) total bs with
      | .ok rq => rq
      | .error _ => process_with_small_batches env obj
          (validate_fields_on_object env.schema fns) total 500 := by
  unfold get_field_usage_batch
  rw [htc]
  rw [if_neg htot, if_neg hvf]
  have h1 : decide (50000 < total) = false := decide_eq_false (by omega)
  have h2 : decide (bs < total) = true := decide_eq_true hbs
  rw [h1, h2]
  simp

theorem batch_dispatch_sampling (env : Env) (obj : String) (fns : List String)
    (tc : Option Nat) (total bs : Nat)
    (htc : tc.getD (get_total_record_count env) = total)
    (htot : total ≠ 0) (hbs : bs < total)
    (hvf : validate_fields_on_object env.schema fns ≠ []) :
    get_field_usage_batch env obj fns tc bs false =
      singleQueryPath env obj (validate_fields_on_object env.schema fns) total bs true := by
  unfold get_field_usage_batch
  rw [htc]
  rw [if_neg htot, if_neg hvf]
  have h2 : decide (bs < total) = true := decide_eq_true hbs
  rw [h2]
  simp

theorem batch_dispatch_small_total (env : Env) (obj : String) (fns : List String)
    (tc : Option Nat) (total bs : Nat) (ufd : Bool)
    (htc : tc.getD (get_total_record_count env) = total)
    (htot : total ≠ 0) (hbs : total ≤ bs)
    (hvf : validate_fields_on_object env.schema fns ≠ []) :
    get_field_usage_batch env obj fns tc bs ufd =
      singleQueryPath env obj (validate_fields_on_object env.schema fns) total bs false := by
  unfold get_field_usage_batch
  rw [htc]
  rw [if_neg htot, if_neg hvf]
  have h2 : decide (bs < total) = false := decide_eq_false (by omega)
  rw [h2]
  cases ufd <;> cases h5 : decide (50000 < total) <;> simp

theorem batch_empty_vf (env : Env) (obj : String) (fns : List String) (tc : Option Nat)
    (bs : Nat) (ufd : Bool)
    (htot : tc.getD (get_total_record_count env) ≠ 0)
    (hvf : validate_fields_on_object env.schema fns = []) :
    get_field_usage_batch env obj fns tc bs ufd = ([], 0) := by
  unfold get_field_usage_batch
  cases htcv : tc.getD (get_total_record_count env) with
  | zero => exact absurd htcv htot
  | succ n =>
    rw [hvf]
    rfl

theorem batch_dispatch_downgrade (env : Env) (obj : String) (fns : List String)
    (tc : Option Nat) (total bs : Nat)
    (htc : tc.getD (get_total_record_count env) = total)
    (htot : total ≠ 0) (hceil : 50000 < total) (hbs : bs < total)
    (hvf : validate_fields_on_object env.schema fns ≠ []) :
    get_field_usage_batch env obj fns tc bs true =
      singleQueryPath env obj (validate_fields_on_object env.schema fns) total bs true := by
  unfold get_field_usage_batch
  rw [htc]
  rw [if_neg htot, if_neg hvf]
  have h1 : decide (50000 < total) = true := decide_eq_true hceil
  have h2 : decide (bs < total) = true := decide_eq_true hbs
  rw [h1, h2]
  simp

theorem batch_cases (env : Env) (obj : String) (fns : List String) (tc : Option Nat)
    (bs : Nat) (ufd : Bool)
    (htot : tc.getD (get_total_record_count env) ≠ 0)
    (hvf : validate_fields_on_object env.schema fns ≠ []) :
    (get_field_usage_batch env obj fns tc bs ufd =
      match process_with_cursor_pagination env obj
          (validate_fields_on_object env.schema fns)
          (tc.getD (get_total_record_count env)) bs with
      | .ok rq => rq
      | .error _ => process_with_small_batches env obj
          (validate_fields_on_object env.schema fns)
          (tc.getD (get_total_record_count env)) 500) ∨
    (∃ us, get_field_usage_batch env obj fns tc bs ufd =
      singleQueryPath env obj (validate_fields_on_object env.schema fns)
        (tc.getD (get_total_record_count env)) bs us) := by
  by_cases hbt : bs < tc.getD (get_total_record_count env)
  · cases ufd with
    | false =>
      right
      exact ⟨true, batch_dispatch_sampling env obj fns tc _ bs rfl htot hbt hvf⟩
    | true =>
      by_cases hceil : tc.getD (get_total_record_count env) ≤ 50000
      · left
        exact batch_dispatch_pagination env obj fns tc _ bs rfl htot hceil hbt hvf
      · right
        exact ⟨true, batch_dispatch_downgrade env obj fns tc _ bs rfl htot (by omega) hbt hvf⟩
  · right
    exact ⟨false, batch_dispatch_small_total env obj fns tc _ bs ufd rfl htot (by omega) hvf⟩

theorem cursor_ok (env : Env) (obj : String) (vf : List (String × String)) (total bs : Nat)
    (hinit : env.cursorInitFail = false) :
    process_with_cursor_pagination env obj vf total bs =
      .ok (usageResultsFromCounts obj vf
          (cursorLoop env.pop vf total (min bs 2000) env.cursorPageFail (total + 1)
            (env.pop.take (min bs 2000)) 1 ⟨vf.map (fun _ => 0), 0, 1⟩).counts
          total
          (cursorLoop env.pop vf total (min bs 2000) env.cursorPageFail (total + 1)
            (env.pop.take (min bs 2000)) 1 ⟨vf.map (fun _ => 0), 0, 1⟩).processed,
        (cursorLoop env.pop vf total (min bs 2000) env.cursorPageFail (total + 1)
          (env.pop.take (min bs 2000)) 1 ⟨vf.map (fun _ => 0), 0, 1⟩).queries) := by
  unfold process_with_cursor_pagination
  rw [hinit]
  rfl

theorem cursor_fail (env : Env) (obj : String) (vf : List (String × String)) (total bs : Nat)
    (hinit : env.cursorInitFail = true) :
    process_with_cursor_pagination env obj vf total bs =
      .error "Initial pagination query failed" := by
  unfold process_with_cursor_pagination
  rw [hinit]
  rfl

theorem small_eq (env : Env) (obj : String) (vf : List (String × String)) (total bs5 : Nat) :
    process_with_small_batches env obj vf total bs5 =
      (usageResultsFromCounts obj vf
          (smallLoop env.pop env.smallBatchFail vf bs5 ((total + bs5 - 1) / bs5) 1
            ⟨vf.map (fun _ => 0), 0, 0⟩).counts
          total
          (smallLoop env.pop env.smallBatchFail vf bs5 ((total + bs5 - 1) / bs5) 1
            ⟨vf.map (fun _ => 0), 0, 0⟩).processed,
        (smallLoop env.pop env.smallBatchFail vf bs5 ((total + bs5 - 1) / bs5) 1
          ⟨vf.map (fun _ => 0), 0, 0⟩).queries) := rfl

theorem singleQueryPath_eq (env : Env) (obj : String) (vf : List (String × String))
    (total bs : Nat) (us : Bool) (hq : env.singleQueryFail = false) :
    singleQueryPath env obj vf total bs us =
      (singleResults obj vf
        (if us || decide (min bs total < total) then env.pop.take (min bs total) else env.pop)
        total (min bs total) us, 1) := by
  unfold singleQueryPath
  rw [hq]
  rfl

theorem singleQueryPath_fail (env : Env) (obj : String) (vf : List (String × String))
    (total bs : Nat) (us : Bool) (hq : env.singleQueryFail = true) :
    singleQueryPath env obj vf total bs us = ([], 1) := by
  unfold singleQueryPath
  rw [hq]
  rfl

theorem zero_counts_le (vf : List (String × String)) :
    ∀ c ∈ vf.map (fun _ => 0), c ≤ 0 := by
  intro c hc
  rcases List.mem_map.mp hc with ⟨_, _, rfl⟩
  exact le_refl 0

theorem cursor_state_inv (env : Env) (vf : List (String × String)) (total bs : Nat)
    (hsort : env.pop.Pairwise (fun a b => a.id < b.id)) :
    (cursorLoop env.pop vf total (min bs 2000) env.cursorPageFail (total + 1)
        (env.pop.take (min bs 2000)) 1 ⟨vf.map (fun _ => 0), 0, 1⟩).processed
        ≤ env.pop.length ∧
      ∀ c ∈ (cursorLoop env.pop vf total (min bs 2000) env.cursorPageFail (total + 1)
          (env.pop.take (min bs 2000)) 1 ⟨vf.map (fun _ => 0), 0, 1⟩).counts,
        c ≤ (cursorLoop env.pop vf total (min bs 2000) env.cursorPageFail (total + 1)
          (env.pop.take (min bs 2000)) 1 ⟨vf.map (fun _ => 0), 0, 1⟩).processed := by
  have hinv := cursorLoop_inv env.pop vf total (min bs 2000) env.cursorPageFail hsort
    (total + 1) 0 1 ⟨vf.map (fun _ => 0), 0, 1⟩ rfl (Nat.zero_le _) (zero_counts_le vf)
  rw [List.drop_zero] at hinv
  exact hinv

theorem small_state_inv (env : Env) (vf : List (String × String)) (total bs5 : Nat) :
    (smallLoop env.pop env.smallBatchFail vf bs5 ((total + bs5 - 1) / bs5) 1
        ⟨vf.map (fun _ => 0), 0, 0⟩).processed ≤ env.pop.length ∧
      ∀ c ∈ (smallLoop env.pop env.smallBatchFail vf bs5 ((total + bs5 - 1) / bs5) 1
          ⟨vf.map (fun _ => 0), 0, 0⟩).counts,
        c ≤ (smallLoop env.pop env.smallBatchFail vf bs5 ((total + bs5 - 1) / bs5) 1
          ⟨vf.map (fun _ => 0), 0, 0⟩).processed :=
  smallLoop_inv env.pop vf bs5 env.smallBatchFail ((total + bs5 - 1) / bs5) 1
    ⟨vf.map (fun _ => 0), 0, 0⟩ (le_refl 1) (by simp) (Nat.zero_le _) (zero_counts_le vf)

/-! ## Claim theorems: usage estimation -/

/-- C6: every usage result produced by any analysis path of
`get_field_usage_batch` — single-query, sampling, cursor pagination, or the
small-batch fallback — satisfies `0 ≤ usage_pct ≤ 100` and
`non_null_records ≤ total_records`, provided the store is consistent with
the resolved population size (the spec's "population size is immutable for
the duration of a run"). -/
theorem C6_result_bounds (env : Env) (obj : String) (fns : List String)
    (tc : Option Nat) (bs : Nat) (ufd : Bool)
    (hsort : env.pop.Pairwise (fun a b => a.id < b.id))
    (hlen : env.pop.length = tc.getD (get_total_record_count env)) :
    ∀ r ∈ (get_field_usage_batch env obj fns tc bs ufd).1,
      0 ≤ r.usage_pct ∧ r.usage_pct ≤ 100 ∧ r.non_null_records ≤ r.total_records := by
  intro r hr
  by_cases h0 : tc.getD (get_total_record_count env) = 0
  · rw [batch_zero env obj fns tc bs ufd h0] at hr
    rcases List.mem_map.mp hr with ⟨fn, _, rfl⟩
    exact ⟨le_refl 0, by norm_num, le_refl 0⟩
  · by_cases hvf : validate_fields_on_object env.schema fns = []
    · rw [batch_empty_vf env obj fns tc bs ufd h0 hvf] at hr
      simp at hr
    · rcases batch_cases env obj fns tc bs ufd h0 hvf with hpag | ⟨us, hsingle⟩
      · rw [hpag] at hr
        cases hci : env.cursorInitFail with
        | false =>
          rw [cursor_ok env obj _ _ bs hci] at hr
          dsimp only at hr
          have hinv := cursor_state_inv env (validate_fields_on_object env.schema fns)
            (tc.getD (get_total_record_count env)) bs hsort
          exact usageResults_bounds hinv.2 (hlen ▸ hinv.1) r hr
        | true =>
          rw [cursor_fail env obj _ _ bs hci] at hr
          dsimp only at hr
          rw [small_eq] at hr
          dsimp only at hr
          have hinv := small_state_inv env (validate_fields_on_object env.schema fns)
            (tc.getD (get_total_record_count env)) 500
          exact usageResults_bounds hinv.2 (hlen ▸ hinv.1) r hr
      · rw [hsingle] at hr
        cases hq : env.singleQueryFail with
        | true =>
          rw [singleQueryPath_fail env obj _ _ bs us hq] at hr
          simp at hr
        | false =>
          rw [singleQueryPath_eq env obj _ _ bs us hq] at hr
          dsimp only at hr
          have hdf : (if us || decide (min bs (tc.getD (get_total_record_count env)) <
                tc.getD (get_total_record_count env)) then
              env.pop.take (min bs (tc.getD (get_total_record_count env)))
            else env.pop).length ≤ tc.getD (get_total_record_count env) := by
            split
            · rw [List.length_take]
              omega
            · omega
          exact singleResults_bounds hdf r hr

/-- C1: an exhaustive (non-sampled) run — full-dataset mode requested, a
non-empty population within the 50000-record ceiling, the store consistent
with the count, and every pagination query succeeding — returns only
results with `is_estimated = false`; in the paginated case (population
larger than one batch) each result's `records_analyzed`, the total number
of records examined across all pages, equals the population size. -/
theorem C1_exhaustive_runs (env : Env) (obj : String) (fns : List String)
    (total bs : Nat)
    (hsort : env.pop.Pairwise (fun a b => a.id < b.id))
    (hlen : env.pop.length = total)
    (htot : 0 < total)
    (hceil : total ≤ 50000)
    (hbs : 0 < bs)
    (hinit : env.cursorInitFail = false)
    (hpage : env.cursorPageFail = fun _ => false) :
    ∀ r ∈ (get_field_usage_batch env obj fns (some total) bs true).1,
      r.is_estimated = some false ∧ (bs < total → r.records_analyzed = some total) := by
  intro r hr
  by_cases hvf : validate_fields_on_object env.schema fns = []
  · rw [batch_empty_vf env obj fns (some total) bs true
      (by simp only [Option.getD_some]; omega) hvf] at hr
    simp at hr
  · by_cases hbt : bs < total
    · rw [batch_dispatch_pagination env obj fns (some total) total bs rfl
        (by omega) hceil hbt hvf] at hr
      rw [cursor_ok env obj _ total bs hinit] at hr
      dsimp only at hr
      have habs : 0 < min bs 2000 := by omega
      have hproc : (cursorLoop env.pop (validate_fields_on_object env.schema fns) total
          (min bs 2000) env.cursorPageFail (total + 1) (env.pop.take (min bs 2000)) 1
          ⟨(validate_fields_on_object env.schema fns).map (fun _ => 0), 0, 1⟩).processed
          = env.pop.length := by
        subst hlen
        have hcc := cursorLoop_complete env.pop (validate_fields_on_object env.schema fns)
          (min bs 2000) env.cursorPageFail hsort habs (fun n => by rw [hpage])
          (env.pop.length + 1) 0 1
          ⟨(validate_fields_on_object env.schema fns).map (fun _ => 0), 0, 1⟩
          rfl (Nat.zero_le _)
          (by
            have h1 : env.pop.length + 1 ≤ (env.pop.length + 1) * min bs 2000 :=
              Nat.le_mul_of_pos_right _ habs
            omega)
        rw [List.drop_zero] at hcc
        exact hcc
      obtain ⟨hcmem, htotr, hest, hrec, hpct⟩ := mem_usageResultsFromCounts hr
      constructor
      · rw [hest, hproc, hlen]
        simp
      · intro _
        rw [hrec, hproc, hlen]
    · rw [batch_dispatch_small_total env obj fns (some total) total bs true rfl
        (by omega) (by omega) hvf] at hr
      cases hq : env.singleQueryFail with
      | true =>
        rw [singleQueryPath_fail env obj _ total bs false hq] at hr
        simp at hr
      | false =>
        rw [singleQueryPath_eq env obj _ total bs false hq] at hr
        dsimp only at hr
        refine ⟨(singleResults_not_estimated r hr).1, fun h => absurd h hbt⟩

/-- A concrete consistent store: five `Account` records with a text field
`F` that is non-null on three of them. -/
def env1 : Env :=
  { schema := some [("F", "string")],
    pop := [⟨1, [("F", Value.vStr "a")]⟩, ⟨2, [("F", Value.vNull)]⟩,
            ⟨3, [("F", Value.vStr "b")]⟩, ⟨4, [("F", Value.vNull)]⟩,
            ⟨5, [("F", Value.vStr "c")]⟩],
    countResult := some 5, countNonNullResult := some 3,
    cursorInitFail := false, cursorPageFail := fun _ => false,
    smallBatchFail := fun _ => false, singleQueryFail := false }

/-- Witness for C1: a five-record exhaustive run paginated in batches of
two. -/
theorem C1_exhaustive_runs_witness :
    (env1.pop.Pairwise (fun a b => a.id < b.id) ∧ env1.pop.length = 5 ∧ 0 < 5 ∧
        5 ≤ 50000 ∧ 0 < 2 ∧ env1.cursorInitFail = false ∧
        env1.cursorPageFail = fun _ => false) ∧
      ∀ r ∈ (get_field_usage_batch env1 "Account" ["F"] (some 5) 2 true).1,
        r.is_estimated = some false ∧ (2 < 5 → r.records_analyzed = some 5) :=
  ⟨⟨by decide, by decide, by decide, by decide, by decide, rfl, rfl⟩,
    C1_exhaustive_runs env1 "Account" ["F"] 5 2 (by decide) (by decide) (by decide)
      (by decide) (by decide) rfl rfl⟩

/-- Witness for C6 at the same concrete store, exercising the paginated
path. -/
theorem C6_result_bounds_witness :
    (env1.pop.Pairwise (fun a b => a.id < b.id) ∧
        env1.pop.length = (some 5 : Option Nat).getD (get_total_record_count env1)) ∧
      ∀ r ∈ (get_field_usage_batch env1 "Account" ["F"] (some 5) 2 true).1,
        0 ≤ r.usage_pct ∧ r.usage_pct ≤ 100 ∧ r.non_null_records ≤ r.total_records :=
  ⟨⟨by decide, by decide⟩,
    C6_result_bounds env1 "Account" ["F"] (some 5) 2 true (by decide) (by decide)⟩

/-- C5: when the resolved population size is 0, both the batch estimator and
the single-field analysis return a `usage_pct = 0` result for every
requested attribute, and the batch estimator issues no data query beyond the
initial count (its data-query counter is 0; schema validation is not even
reached). -/
theorem C5_zero_population (env : Env) (obj : String) (fns : List String) (fn : String)
    (tc : Option Nat) (bs sz : Nat) (ufd : Bool)
    (h : tc.getD (get_total_record_count env) = 0) :
    get_field_usage_batch env obj fns tc bs ufd =
      (fns.map (fun f =>
        { object := obj, field := f, total_records := 0,
          non_null_records := 0, usage_pct := 0 }), 0) ∧
    (∀ r ∈ (get_field_usage_batch env obj fns tc bs ufd).1, r.usage_pct = 0) ∧
    get_field_usage env obj fn tc sz =
      some { object := obj, field := firstFieldName fn, total_records := 0,
             non_null_records := 0, usage_pct := 0 } := by
  refine ⟨batch_zero env obj fns tc bs ufd h, ?_, ?_⟩
  · intro r hr
    rw [batch_zero env obj fns tc bs ufd h] at hr
    rcases List.mem_map.mp hr with ⟨f, _, rfl⟩
    rfl
  · unfold get_field_usage
    rw [h]
    rfl

/-- Witness for C5: population 0 given explicitly; the unknown field name
"Bogus" still gets a zero result. -/
theorem C5_zero_population_witness :
    ((some 0 : Option Nat).getD (get_total_record_count env1) = 0) ∧
      (get_field_usage_batch env1 "Account" ["F", "Bogus"] (some 0) 5000 false =
        ((["F", "Bogus"].map (fun f =>
          { object := "Account", field := f, total_records := 0,
            non_null_records := 0, usage_pct := 0 })), 0) ∧
      (∀ r ∈ (get_field_usage_batch env1 "Account" ["F", "Bogus"] (some 0) 5000 false).1,
        r.usage_pct = 0) ∧
      get_field_usage env1 "Account" "F" (some 0) 5000 =
        some { object := "Account", field := firstFieldName "F", total_records := 0,
               non_null_records := 0, usage_pct := 0 }) :=
  ⟨rfl, C5_zero_population env1 "Account" ["F", "Bogus"] "F" (some 0) 5000 5000 false rfl⟩

/-- C9: a failing count query makes `get_total_record_count` return 0, and
the batch estimator then returns a 0% result for *every* requested field
name — without consulting the schema, so nonexistent fields are included —
and those results carry no `is_estimated` or `sample_size` entries. -/
theorem C9_count_query_failure (env : Env) (obj : String) (fns : List String)
    (bs : Nat) (ufd : Bool) (hc : env.countResult = none) :
    get_total_record_count env = 0 ∧
    get_field_usage_batch env obj fns none bs ufd =
      (fns.map (fun fn =>
        { object := obj, field := fn, total_records := 0,
          non_null_records := 0, usage_pct := 0 }), 0) ∧
    ((get_field_usage_batch env obj fns none bs ufd).1.map UsageResult.field = fns) ∧
    (∀ r ∈ (get_field_usage_batch env obj fns none bs ufd).1,
      r.is_estimated = none ∧ r.sample_size = none) := by
  have h0 : get_total_record_count env = 0 := by
    unfold get_total_record_count
    rw [hc]
    rfl
  have hz : (none : Option Nat).getD (get_total_record_count env) = 0 := by
    simpa using h0
  refine ⟨h0, batch_zero env obj fns none bs ufd hz, ?_, ?_⟩
  · rw [batch_zero env obj fns none bs ufd hz]
    dsimp only
    rw [List.map_map]
    show List.map (fun fn => fn) fns = fns
    simp
  · intro r hr
    rw [batch_zero env obj fns none bs ufd hz] at hr
    rcases List.mem_map.mp hr with ⟨f, _, rfl⟩
    exact ⟨rfl, rfl⟩

/-- A run whose count query fails: the schema describe also fails, yet
results are produced for the nonexistent field. -/
def env9 : Env :=
  { schema := none, pop := [], countResult := none, countNonNullResult := none,
    cursorInitFail := false, cursorPageFail := fun _ => false,
    smallBatchFail := fun _ => false, singleQueryFail := false }

/-- Witness for C9 at a concrete failing-count environment. -/
theorem C9_count_query_failure_witness :
    env9.countResult = none ∧
      (get_total_record_count env9 = 0 ∧
      get_field_usage_batch env9 "Account" ["NotAField"] none 5000 false =
        ((["NotAField"].map (fun fn =>
          { object := "Account", field := fn, total_records := 0,
            non_null_records := 0, usage_pct := 0 })), 0) ∧
      ((get_field_usage_batch env9 "Account" ["NotAField"] none 5000 false).1.map
        UsageResult.field = ["NotAField"]) ∧
      (∀ r ∈ (get_field_usage_batch env9 "Account" ["NotAField"] none 5000 false).1,
        r.is_estimated = none ∧ r.sample_size = none)) :=
  ⟨rfl, C9_count_query_failure env9 "Account" ["NotAField"] 5000 false rfl⟩

/-- A store of four records whose field `F` is non-null on the first two of
the three sampled records: the sampled fraction is 2/3, the population 4. -/
def env2 : Env :=
  { schema := some [("F", "string")],
    pop := [⟨1, [("F", Value.vStr "x")]⟩, ⟨2, [("F", Value.vStr "y")]⟩,
            ⟨3, [("F", Value.vNull)]⟩, ⟨4, [("F", Value.vStr "z")]⟩],
    countResult := some 4, countNonNullResult := some 3,
    cursorInitFail := false, cursorPageFail := fun _ => false,
    smallBatchFail := fun _ => false, singleQueryFail := false }

/-- C2 counterexample: sampling 3 of 4 records with 2 non-null gives
`usage_percent = 200/3`; the code reports `int((200/3)/100 * 4) = 2`
non-empty records, while `round((200/3)/100 * 4) = round(8/3) = 3`. -/
theorem C2_extrapolation_counterexample :
    ((get_field_usage_batch env2 "Account" ["F"] (some 4) 3 false).1.map
        UsageResult.non_null_records = [2]) ∧
    round ((((2 : ℚ) / 3 * 100) / 100) * 4) = 3 ∧ (2 : ℤ) ≠ 3 := by
  have hvf : validate_fields_on_object env2.schema ["F"] = [("F", "string")] := by decide
  have hcol : colPresent (env2.pop.take (min 3 4)) "F" = true := by decide
  have hcnt : countNonNull "F" "string" (env2.pop.take (min 3 4)) = 2 := by decide
  have hlen3 : (env2.pop.take (min 3 4)).length = 3 := by decide
  have hd := batch_dispatch_sampling env2 "Account" ["F"] (some 4) 4 3 rfl
    (by decide) (by decide) (by rw [hvf]; decide)
  rw [singleQueryPath_eq env2 "Account" _ 4 3 true rfl] at hd
  rw [hvf] at hd
  refine ⟨?_, by norm_num [round_eq], by decide⟩
  rw [hd]
  dsimp only
  simp only [Bool.true_or, eq_self_iff_true, if_true, singleResults, List.filterMap_cons,
    List.filterMap_nil, hcol, Bool.not_true, Bool.false_eq_true, if_false,
    List.map_cons, List.map_nil]
  rw [hcnt, hlen3]
  norm_num
  decide

theorem altSample_shape (env : Env) (obj fn : String) (total sz : Nat) {r' : UsageResult}
    (h : altSample env obj fn total sz = some r') :
    r'.is_estimated = some true ∧
      r'.non_null_records =
        (⌊((((env.pop.take (min sz total)).filter
              (fun rec => altNonNull (rec.get fn))).length : ℚ) /
            ((min sz total : Nat) : ℚ)) * (total : ℚ)⌋).toNat := by
  simp only [altSample] at h
  cases hq : env.singleQueryFail with
  | true =>
    rw [hq] at h
    simp at h
  | false =>
    rw [hq] at h
    simp only [Bool.false_eq_true, if_false] at h
    have heq := Option.some_inj.mp h
    subst heq
    refine ⟨rfl, ?_⟩
    dsimp only
    congr 2
    rw [mul_div_assoc]
    norm_num

/-- C2 amended: for every sampled (estimated) usage analysis with
population > 0 — the batch sampling path and `get_field_usage`'s sampling
("alternative") method alike — the reported non-empty count is the
*truncation* (Python `int`, here `⌊·⌋`) of
`usage_percent/100 × population_size`, where `usage_percent` is 100 times
the non-null fraction observed in the sample (for `get_field_usage`, with
the requested sample size as denominator) — not its rounding. -/
theorem C2_extrapolation_amended (env : Env) (obj : String) (fns : List String)
    (total bs : Nat) (htot : 0 < total) (hbs : bs < total) :
    (∀ r ∈ (get_field_usage_batch env obj fns (some total) bs false).1,
      r.is_estimated = some true ∧
        ∃ p ∈ validate_fields_on_object env.schema fns,
          r.field = p.1 ∧
          r.non_null_records =
            (⌊((countNonNull p.1 p.2 (env.pop.take (min bs total)) : ℚ) /
                ((env.pop.take (min bs total)).length : ℚ)) * (total : ℚ)⌋).toNat) ∧
    (∀ (fn : String) (sz : Nat) (r' : UsageResult),
      get_field_usage env obj fn (some total) sz = some r' →
      r'.is_estimated = some true →
      r'.non_null_records =
        (⌊((((env.pop.take (min sz total)).filter
              (fun rec => altNonNull (rec.get (firstFieldName fn)))).length : ℚ) /
            ((min sz total : Nat) : ℚ)) * (total : ℚ)⌋).toNat) := by
  constructor
  · intro r hr
    by_cases hvf : validate_fields_on_object env.schema fns = []
    · rw [batch_empty_vf env obj fns (some total) bs false
        (by simp only [Option.getD_some]; omega) hvf] at hr
      simp at hr
    · rw [batch_dispatch_sampling env obj fns (some total) total bs rfl (by omega) hbs hvf] at hr
      cases hq : env.singleQueryFail with
      | true =>
        rw [singleQueryPath_fail env obj _ total bs true hq] at hr
        simp at hr
      | false =>
        rw [singleQueryPath_eq env obj _ total bs true hq] at hr
        simp only [Bool.true_or, if_true] at hr
        exact singleResults_sampling_shape r hr
  · intro fn sz r' h hest
    simp only [get_field_usage, Option.getD_some] at h
    rw [if_neg (by omega : ¬ total = 0)] at h
    cases hs : env.schema with
    | none =>
      rw [hs] at h
      simp at h
    | some fields =>
      rw [hs] at h
      dsimp only at h
      cases hf : fields.find? (fun f => strLower f.1 == strLower (firstFieldName fn)) with
      | none =>
        rw [hf] at h
        simp at h
      | some f =>
        rw [hf] at h
        dsimp only at h
        split at h
        · exact (altSample_shape env obj (firstFieldName fn) total sz h).2
        · cases hcn : env.countNonNullResult with
          | some c =>
            rw [hcn] at h
            dsimp only at h
            have heq := Option.some_inj.mp h
            subst heq
            simp at hest
          | none =>
            rw [hcn] at h
            exact (altSample_shape env obj (firstFieldName fn) total sz h).2

/-- Witness for the amended C2 at the concrete store `env2`. -/
theorem C2_extrapolation_amended_witness :
    (0 < 4 ∧ 3 < 4) ∧
      ((∀ r ∈ (get_field_usage_batch env2 "Account" ["F"] (some 4) 3 false).1,
        r.is_estimated = some true ∧
          ∃ p ∈ validate_fields_on_object env2.schema ["F"],
            r.field = p.1 ∧
            r.non_null_records =
              (⌊((countNonNull p.1 p.2 (env2.pop.take (min 3 4)) : ℚ) /
                  ((env2.pop.take (min 3 4)).length : ℚ)) * ((4 : Nat) : ℚ)⌋).toNat) ∧
      (∀ (fn : String) (sz : Nat) (r' : UsageResult),
        get_field_usage env2 "Account" fn (some 4) sz = some r' →
        r'.is_estimated = some true →
        r'.non_null_records =
          (⌊((((env2.pop.take (min sz 4)).filter
                (fun rec => altNonNull (rec.get (firstFieldName fn)))).length : ℚ) /
              ((min sz 4 : Nat) : ℚ)) * ((4 : Nat) : ℚ)⌋).toNat)) :=
  ⟨⟨by decide, by decide⟩,
    C2_extrapolation_amended env2 "Account" ["F"] 4 3 (by decide) (by decide)⟩

/-- A five-record store whose cursor pagination loses its follow-up query:
the query issued after the first batch (`cursorPageFail 1`) fails. -/
def env3 : Env :=
  { schema := some [("F", "string")],
    pop := [⟨1, [("F", Value.vStr "a")]⟩, ⟨2, [("F", Value.vStr "b")]⟩,
            ⟨3, [("F", Value.vStr "c")]⟩, ⟨4, [("F", Value.vStr "d")]⟩,
            ⟨5, [("F", Value.vStr "e")]⟩],
    countResult := some 5, countNonNullResult := some 5,
    cursorInitFail := false, cursorPageFail := fun n => n == 1,
    smallBatchFail := fun _ => false, singleQueryFail := false }

/-- C3 counterexample: when a cursor query fails *partway* (after page 1 of
3), the run returns the partial cursor results directly —
`records_analyzed = 2` of 5, `is_estimated = true` — whereas an
offset-based small-batch retry (whose queries all succeed here) would have
examined all 5 records and reported `is_estimated = false`.  The source
only raises (and falls back to small batches) when the *initial* cursor
query fails; a later page failure merely breaks the loop. -/
theorem C3_page_failure_counterexample :
    ((get_field_usage_batch env3 "Account" ["F"] (some 5) 2 true).1.map
        UsageResult.records_analyzed = [some 2]) ∧
    ((get_field_usage_batch env3 "Account" ["F"] (some 5) 2 true).1.map
        UsageResult.is_estimated = [some true]) ∧
    ((process_with_small_batches env3 "Account" [("F", "string")] 5 500).1.map
        UsageResult.records_analyzed = [some 5]) ∧
    ((process_with_small_batches env3 "Account" [("F", "string")] 5 500).1.map
        UsageResult.is_estimated = [some false]) := by
  refine ⟨by decide, by decide, by decide, by decide⟩

/-- C3 amended: only a failure of the *initial* cursor query makes the
estimator retry via offset-based small batches; a failure on a later page
ends cursor pagination with partial results.  On either pagination path,
every result reflects a shortfall exactly through its flag:
`is_estimated = true` iff `records_analyzed < population_size`. -/
theorem C3_cursor_failure_amended (env : Env) (obj : String) (fns : List String)
    (total bs : Nat)
    (htot : 0 < total) (hceil : total ≤ 50000) (hbs : bs < total)
    (hvf : validate_fields_on_object env.schema fns ≠ []) :
    (env.cursorInitFail = true →
      get_field_usage_batch env obj fns (some total) bs true =
        process_with_small_batches env obj
          (validate_fields_on_object env.schema fns) total 500) ∧
    (∀ r ∈ (get_field_usage_batch env obj fns (some total) bs true).1,
      ∀ p, r.records_analyzed = some p → (r.is_estimated = some true ↔ p < total)) := by
  constructor
  · intro hci
    rw [batch_dispatch_pagination env obj fns (some total) total bs rfl (by omega) hceil
      hbs hvf]
    rw [cursor_fail env obj _ total bs hci]
  · intro r hr p hp
    rw [batch_dispatch_pagination env obj fns (some total) total bs rfl (by omega) hceil
      hbs hvf] at hr
    have hshape : r.is_estimated = some (decide (p < total)) := by
      cases hci : env.cursorInitFail with
      | false =>
        rw [cursor_ok env obj _ total bs hci] at hr
        dsimp only at hr
        obtain ⟨_, _, hest, hrec, _⟩ := mem_usageResultsFromCounts hr
        rw [hp] at hrec
        rw [← Option.some_inj.mp hrec] at hest
        exact hest
      | true =>
        rw [cursor_fail env obj _ total bs hci] at hr
        dsimp only at hr
        rw [small_eq] at hr
        dsimp only at hr
        obtain ⟨_, _, hest, hrec, _⟩ := mem_usageResultsFromCounts hr
        rw [hp] at hrec
        rw [← Option.some_inj.mp hrec] at hest
        exact hest
    rw [hshape]
    constructor
    · intro h
      exact of_decide_eq_true (Option.some_inj.mp h)
    · intro h
      rw [decide_eq_true h]

/-- The same five-record store with a failing *initial* cursor query. -/
def env3b : Env :=
  { schema := some [("F", "string")],
    pop := [⟨1, [("F", Value.vStr "a")]⟩, ⟨2, [("F", Value.vStr "b")]⟩,
            ⟨3, [("F", Value.vStr "c")]⟩, ⟨4, [("F", Value.vStr "d")]⟩,
            ⟨5, [("F", Value.vStr "e")]⟩],
    countResult := some 5, countNonNullResult := some 5,
    cursorInitFail := true, cursorPageFail := fun _ => false,
    smallBatchFail := fun _ => false, singleQueryFail := false }

/-- Witness for the amended C3 at the concrete failing-initial-query
store. -/
theorem C3_cursor_failure_amended_witness :
    (0 < 5 ∧ 5 ≤ 50000 ∧ 2 < 5 ∧ validate_fields_on_object env3b.schema ["F"] ≠ []) ∧
      ((env3b.cursorInitFail = true →
        get_field_usage_batch env3b "Account" ["F"] (some 5) 2 true =
          process_with_small_batches env3b "Account"
            (validate_fields_on_object env3b.schema ["F"]) 5 500) ∧
      (∀ r ∈ (get_field_usage_batch env3b "Account" ["F"] (some 5) 2 true).1,
        ∀ p, r.records_analyzed = some p → (r.is_estimated = some true ↔ p < 5))) :=
  ⟨⟨by decide, by decide, by decide, by decide⟩,
    C3_cursor_failure_amended env3b "Account" ["F"] 5 2 (by decide) (by decide)
      (by decide) (by decide)⟩

/-- The claim's per-record non-empty test for ordinary scalar attributes,
following the spec's words: "value is present and not null/empty string". -/
def specScalarNonEmpty : Value → Bool
  | .vNull => false
  | .vStr s => !(s == "")
  | _ => true

/-- The claim's test for structured/compound attributes, following the
spec's words: "present if any sub-component is non-null". -/
def specCompoundNonEmpty : Value → Bool
  | .vDict es => (es.map Prod.snd).any Value.notna
  | _ => false

/-- C4 counterexample: the code counts a scalar empty-string value as
non-empty (pandas `notna`), where the claim says it is empty; and the code
does *not* count a compound value whose only sub-component is the non-null
empty string, where the claim says it counts. -/
theorem C4_non_null_test_counterexample :
    countNonNull "F" "string" [⟨1, [("F", Value.vStr "")]⟩] = 1 ∧
    specScalarNonEmpty (Value.vStr "") = false ∧
    countNonNull "A" "address" [⟨1, [("A", Value.vDict [("street", Value.vStr "")])]⟩] = 0 ∧
    specCompoundNonEmpty (Value.vDict [("street", Value.vStr "")]) = true := by
  refine ⟨by decide, by decide, by decide, by decide⟩

/-- The amended per-record test of the batch paths: a declared `address`
attribute counts when some sub-component is non-null *and* truthy (non-empty);
every other attribute — `location` included — counts iff its value is
non-null, the empty string counting as non-empty. -/
def amendedNonEmpty (field_type : String) (v : Value) : Bool :=
  if field_type == "address" then
    match v with
    | .vDict es => (es.map Prod.snd).any (fun w => w.notna && w.truthy)
    | _ => false
  else v.notna

/-- The amended test of `get_field_usage`'s sampling method: the value is
non-null, and a dict value additionally has some non-null truthy
sub-component. -/
def amendedAltNonEmpty : Value → Bool
  | .vNull => false
  | .vDict es => (es.map Prod.snd).any (fun w => w.notna && w.truthy)
  | _ => true

theorem any_filter {α : Type} (p q : α → Bool) :
    ∀ l : List α, (l.filter p).any q = l.any (fun x => p x && q x)
  | [] => rfl
  | x :: t => by
    rw [List.filter_cons]
    cases hp : p x
    · simp [hp, any_filter p q t]
    · simp [hp, any_filter p q t]

/-- C4 amended: both per-record tests, as implemented. -/
theorem C4_non_null_test_amended :
    (∀ (fn ft : String) (df : List Record),
      countNonNull fn ft df =
        (df.filter (fun r => amendedNonEmpty ft (r.get fn))).length) ∧
    (∀ v, altNonNull v = amendedAltNonEmpty v) := by
  constructor
  · intro fn ft df
    unfold countNonNull amendedNonEmpty
    cases ha : ft == "address"
    · simp only [ha, Bool.false_or, Bool.false_eq_true, if_false]
      cases hl : ft == "location"
      · simp
      · simp
    · simp only [ha, Bool.true_or, if_true]
      congr 1
      apply List.filter_congr
      intro r _
      cases hv : r.get fn
      · rfl
      · rfl
      · rfl
      · rfl
      · exact any_filter Value.notna Value.truthy _
  · intro v
    cases v
    · rfl
    · rfl
    · rfl
    · rfl
    · exact any_filter Value.notna Value.truthy _

end SFDCAudit
